import Mathlib

/-!
Verification of the recipe-manager core (src/db_manager.py) against its
natural-language specification.

Shallow embedding conventions:
* SQLAlchemy rows become Lean structures with the source's column names.
* The database is a `Store`: the three tables as lists of rows.
* Python float arithmetic is IEEE-754 binary64.  It is modelled over `Rat`
  by `fl64`: round to nearest, ties to even, at 53 significant bits
  (`fadd64`, `fmul64`, `fdiv64` round the exact rational result of each
  operation, which is exactly the IEEE semantics of the double operations;
  CPython's int/int true division and int-to-float conversion are also
  correctly rounded, hence `fdiv64`/`fl64` on the cast integers).  The
  model keeps full precision outside the binary64 normal exponent range
  instead of overflowing to infinity or flushing to subnormals; every
  value in this development is far inside the normal range, where the
  model agrees with binary64 exactly.  Definitions named `...Exact` /
  `scaleExact` are NOT translations of the source: they are modelled from
  the specification's real-number (exact) arithmetic, for the refinement
  comparisons of C6/C7/C8.  Python's `ZeroDivisionError` is modelled
  explicitly (Lean's `x / 0 = 0` is never relied upon: every division in
  the source is guarded by an explicit zero test mirroring the exception).
* Fallible Python code returns `Except PyError`; the error constructors
  mirror the exception classes the source can raise.  `noRecipesAvailable`
  is an error kind named only by the specification (§7); the source defines
  no such exception, the constructor exists so that claims mentioning it
  are statable.
* `random.choice(seq)` is modelled by an index supplied by an explicit
  random stream `rng : Nat → Nat`, reduced mod the sequence length; on an
  empty sequence it fails with `indexError`, exactly as `random.choice`.
* The `while` loop of `generate_meal_plan` is modelled with a fuel
  parameter; `generate_meal_plan` supplies `num_recipes.toNat` fuel, which
  the termination claim (C9) shows is never exhausted.
-/

namespace RecipeDb

/-- `Ingredient` row (db_manager.py, class Ingredient): id, unique name,
nullable description and unit.  The source model carries no macro fields. -/
structure Ingredient where
  ingredient_id : Int
  ingredient_name : String
  ingredient_description : Option String
  ingredient_unit : Option String
deriving DecidableEq, Repr

/-- `Recipe` row (db_manager.py, class Recipe). -/
structure Recipe where
  recipe_id : Int
  recipe_name : String
  recipe_description : Option String
  recipe_instructions : String
  recipe_servings : Int
  recipe_cooking_time : Option Int
  recipe_prep_time : Option Int
  recipe_calories : Option Rat
  recipe_protein : Option Rat
  recipe_fat : Option Rat
  recipe_carbs : Option Rat
deriving DecidableEq, Repr

/-- `RecipeIngredient` association row (db_manager.py, class RecipeIngredient).
The table's only constraint is the surrogate primary key: there is no schema
uniqueness constraint on the (recipe_id, ingredient_id) pair. -/
structure RecipeIngredient where
  recipe_ingredients_id : Int
  recipe_id : Int
  ingredient_id : Int
  ingredient_quantity : Rat
deriving DecidableEq, Repr

/-- Database contents: the three tables. -/
structure Store where
  ingredients : List Ingredient
  recipes : List Recipe
  links : List RecipeIngredient
deriving Repr

/-- Exception kinds raisable by the embedded code.  `notFound` is the
source's NotFoundError, `integrityError` SQLAlchemy's IntegrityError,
`otherError` the source's OtherError, `zeroDivisionError`, `indexError`
and `typeError` the Python builtins.  `noRecipesAvailable` appears in the
specification only; the source never raises it (see C4).  `typeError` is
what `raise IntegrityError("...")` actually raises: SQLAlchemy 2.0's
IntegrityError inherits `DBAPIError.__init__(statement, params, orig, ...)`,
so constructing it with one positional message argument fails with
TypeError before anything is raised (see C10). -/
inductive PyError where
  | notFound
  | integrityError
  | otherError
  | zeroDivisionError
  | indexError
  | typeError
  | noRecipesAvailable
deriving DecidableEq, Repr

/-- Whether `2 ^ m ≤ x` for an integer exponent, phrased over `Nat` powers
so the comparison is decidable without `zpow`. -/
def pow2le (m : Int) (x : Rat) : Bool :=
  if 0 ≤ m then decide ((2 : Rat) ^ m.toNat ≤ x) else decide (1 ≤ x * (2 : Rat) ^ (-m).toNat)

/-- Binary search for the binary exponent of a positive rational:
the `e` with `2 ^ e ≤ x < 2 ^ (e + 1)` (see `findExp_correct`). -/
def findExp (x : Rat) (lo hi : Int) : Int :=
  if _h : hi ≤ lo + 1 then lo
  else
    let mid := (lo + hi) / 2
    if pow2le mid x then findExp x mid hi else findExp x lo mid
termination_by (hi - lo).toNat
decreasing_by
  all_goals simp_wf
  all_goals omega

/-- Round a positive rational to the nearest 53-significant-bit dyadic
value, ties to even: the IEEE-754 binary64 rounding of a positive real.
The exponent search range `[-1200, 1200)` covers every finite double;
outside the binary64 normal range the model keeps 53-bit precision
instead of producing infinities or subnormals (no value in this
development comes near either boundary). -/
def flPos (x : Rat) : Rat :=
  let e := findExp x (-1200) 1200
  let y := if 0 ≤ 52 - e then x * 2 ^ (52 - e).toNat else x / 2 ^ (e - 52).toNat
  let n0 := ⌊y⌋
  let n : Int := if y - n0 < 1/2 then n0
                 else if (1 : Rat)/2 < y - n0 then n0 + 1
                 else if n0 % 2 = 0 then n0 else n0 + 1
  if 0 ≤ 52 - e then (n : Rat) / 2 ^ (52 - e).toNat else (n : Rat) * 2 ^ (e - 52).toNat

/-- IEEE-754 binary64 rounding (round to nearest, ties to even) of an
exact rational value. -/
def fl64 (x : Rat) : Rat :=
  if x = 0 then 0 else if x < 0 then -flPos (-x) else flPos x

/-- Python float addition: the exact sum, rounded. -/
def fadd64 (a b : Rat) : Rat := fl64 (a + b)

/-- Python float multiplication: the exact product, rounded. -/
def fmul64 (a b : Rat) : Rat := fl64 (a * b)

/-- Python float (and CPython int/int true) division: the exact quotient,
rounded. -/
def fdiv64 (a b : Rat) : Rat := fl64 (a / b)

/-- `Except.isOk` measured as a Bool (an exception was not raised). -/
def exOk {α : Type} : Except PyError α → Bool
  | .ok _ => true
  | .error _ => false

/-- `session.get(Recipe, id)` + the not-found check of `get_recipe_by_id`. -/
def get_recipe_by_id (s : Store) (id : Int) : Except PyError Recipe :=
  match s.recipes.find? (fun r => r.recipe_id == id) with
  | some r => .ok r
  | none => .error .notFound

/-- `session.get(Ingredient, id)`: primary-key lookup, no exception. -/
def resolveIngredient (s : Store) (iid : Int) : Option Ingredient :=
  s.ingredients.find? (fun i => i.ingredient_id == iid)

/-- The association rows of one recipe
(`select(RecipeIngredient).where(recipe_id == recipe)`). -/
def linkRowsFor (s : Store) (recipe : Int) : List RecipeIngredient :=
  s.links.filter (fun row => row.recipe_id == recipe)

/-- The rows of `linkRowsFor` with their `joinedload`ed Ingredient object.
The foreign key plus the delete cascades keep every row's ingredient
present, so resolving the ingredient_id never drops a row. -/
def resolvedLinks (s : Store) (recipe : Int) : List (Ingredient × Rat) :=
  (linkRowsFor s recipe).filterMap
    (fun row => (resolveIngredient s row.ingredient_id).map
      (fun ing => (ing, row.ingredient_quantity)))

/-- `get_all_recipe_ingredients` (db_manager.py lines 445-474): checks the
recipe exists, selects its association rows, and raises NotFoundError both
when the recipe is missing and when the row list is empty (`if result:`). -/
def get_all_recipe_ingredients (s : Store) (recipe : Int) :
    Except PyError (List (Ingredient × Rat)) :=
  match get_recipe_by_id s recipe with
  | .error e => .error e
  | .ok _ =>
    if (linkRowsFor s recipe).isEmpty then .error .notFound
    else .ok (resolvedLinks s recipe)

/-- Python dict assignment `d[k] = v` on an insertion-ordered dict:
an existing entry keeps its position and is overwritten, a new key is
appended.  Ingredient keys compare by ORM object identity; inside one
session the identity map makes row-equality object-identity. -/
def dictSet (d : List (Ingredient × Rat)) (k : Ingredient) (v : Rat) :
    List (Ingredient × Rat) :=
  if d.any (fun p => p.1 == k) then
    d.map (fun p => if p.1 == k then (k, v) else p)
  else d ++ [(k, v)]

/-- `adjust_recipe_by_servings` (db_manager.py lines 674-704).  Order of
operations follows the source: recipe lookup, then
`serving_multiplier = (1/recipe_serving)*servings` (Python raises
ZeroDivisionError when `recipe_serving` is 0), then the ingredient fetch,
then the per-link multiplication into the result dict.  Arithmetic is
binary64: `1/recipe_serving` is CPython's correctly-rounded int/int
division, `* servings` converts the int and multiplies as doubles, and
each `quantity * serving_multiplier` is a double multiplication. -/
def adjust_recipe_by_servings (s : Store) (recipe_id servings : Int) :
    Except PyError (List (Ingredient × Rat)) :=
  match get_recipe_by_id s recipe_id with
  | .error e => .error e
  | .ok recipe =>
    let recipe_serving := recipe.recipe_servings
    if recipe_serving == 0 then .error .zeroDivisionError
    else
      let serving_multiplier : Rat :=
        fmul64 (fdiv64 1 (recipe_serving : Rat)) (fl64 (servings : Rat))
      match get_all_recipe_ingredients s recipe_id with
      | .error e => .error e
      | .ok recipe_ingredients =>
        .ok (recipe_ingredients.foldl
          (fun d p => dictSet d p.1 (fmul64 p.2 serving_multiplier)) [])

/-- Modelled from the specification, NOT from the source: the scaling
contract of §4.1 read over exact real arithmetic
(`quantity * (1/base)*target` with no rounding).  Control flow is that of
`adjust_recipe_by_servings`; only the arithmetic differs.  C7 proves the
spec's identity-scaling sentence for this model, and its counterexample
shows the source's float arithmetic deviates from it. -/
def scaleExact (s : Store) (recipe_id servings : Int) :
    Except PyError (List (Ingredient × Rat)) :=
  match get_recipe_by_id s recipe_id with
  | .error e => .error e
  | .ok recipe =>
    let recipe_serving := recipe.recipe_servings
    if recipe_serving == 0 then .error .zeroDivisionError
    else
      let serving_multiplier : Rat := 1 / (recipe_serving : Rat) * (servings : Rat)
      match get_all_recipe_ingredients s recipe_id with
      | .error e => .error e
      | .ok recipe_ingredients =>
        .ok (recipe_ingredients.foldl
          (fun d p => dictSet d p.1 (p.2 * serving_multiplier)) [])

/-- The Python value returned by `adjust_recipe_by_servings`: the source
returns the quantity dict alone; the specification's scaling contract
(§4.1) would return it paired with a macro quartet.  Both shapes live in
one type so the contract claim (C2) is statable. -/
inductive ScaleResult where
  | quantities (m : List (Ingredient × Rat))
  | quantitiesWithMacros (m : List (Ingredient × Rat)) (macros : Rat × Rat × Rat × Rat)
deriving DecidableEq, Repr

/-- `adjust_recipe_by_servings` viewed as what it actually returns:
`return updated_quantities` — the dict alone. -/
def adjustPyReturn (s : Store) (recipe_id servings : Int) :
    Except PyError ScaleResult :=
  (adjust_recipe_by_servings s recipe_id servings).map ScaleResult.quantities

/-- Whether a scaling result carries the macro quartet of §4.1. -/
def hasMacroQuartet : Except PyError ScaleResult → Bool
  | .ok (.quantitiesWithMacros _ _) => true
  | _ => false

/-- One accumulation step of `get_shopping_list`: keyed by ingredient_id,
the first occurrence retains the Ingredient object and initialises the
quantity to `0.0`, every occurrence adds `quantity * serving_multiplier`
by a double addition (`+=` on the float entry). -/
def addQty (a : List (Int × Ingredient × Rat)) (ing : Ingredient) (v : Rat) :
    List (Int × Ingredient × Rat) :=
  if a.any (fun e => e.1 == ing.ingredient_id) then
    a.map (fun e => if e.1 == ing.ingredient_id then (e.1, e.2.1, fadd64 e.2.2 v) else e)
  else a ++ [(ing.ingredient_id, ing, fadd64 0 v)]

/-- Modelled from the specification, NOT from the source: `addQty` with
exact real addition in place of the double additions. -/
def addQtyExact (a : List (Int × Ingredient × Rat)) (ing : Ingredient) (v : Rat) :
    List (Int × Ingredient × Rat) :=
  if a.any (fun e => e.1 == ing.ingredient_id) then
    a.map (fun e => if e.1 == ing.ingredient_id then (e.1, e.2.1, e.2.2 + v) else e)
  else a ++ [(ing.ingredient_id, ing, 0 + v)]

/-- The `for recipe in recipe_set` loop of `get_shopping_list`: per recipe,
fetch its ingredients (raising as `get_all_recipe_ingredients` does), then
compute `servings / recipe.recipe_servings` (ZeroDivisionError on a
zero-servings recipe; otherwise CPython's correctly-rounded int/int
division), then accumulate each link with double arithmetic. -/
def shoppingLoop (s : Store) (servings : Int) :
    List Recipe → List (Int × Ingredient × Rat) →
    Except PyError (List (Int × Ingredient × Rat))
  | [], acc => .ok acc
  | recipe :: rest, acc =>
    match get_all_recipe_ingredients s recipe.recipe_id with
    | .error e => .error e
    | .ok ingredients =>
      if recipe.recipe_servings == 0 then .error .zeroDivisionError
      else
        let serving_multiplier : Rat := fdiv64 (servings : Rat) (recipe.recipe_servings : Rat)
        shoppingLoop s servings rest
          (ingredients.foldl (fun a p => addQty a p.1 (fmul64 p.2 serving_multiplier)) acc)

/-- Modelled from the specification, NOT from the source: the shopping
loop over exact real arithmetic, for the order-independence comparison of
C8 (the spec's aggregation reads as exact sums). -/
def shoppingLoopExact (s : Store) (servings : Int) :
    List Recipe → List (Int × Ingredient × Rat) →
    Except PyError (List (Int × Ingredient × Rat))
  | [], acc => .ok acc
  | recipe :: rest, acc =>
    match get_all_recipe_ingredients s recipe.recipe_id with
    | .error e => .error e
    | .ok ingredients =>
      if recipe.recipe_servings == 0 then .error .zeroDivisionError
      else
        let serving_multiplier : Rat := (servings : Rat) / (recipe.recipe_servings : Rat)
        shoppingLoopExact s servings rest
          (ingredients.foldl (fun a p => addQtyExact a p.1 (p.2 * serving_multiplier)) acc)

/-- `get_shopping_list` (db_manager.py lines 760-793): accumulate over the
recipe set, then strip the ingredient_id keys
(`{item["object"]: item["quantity"] for item in shopping_list.values()}`). -/
def get_shopping_list (s : Store) (servings : Int) (recipe_set : List Recipe) :
    Except PyError (List (Ingredient × Rat)) :=
  (shoppingLoop s servings recipe_set []).map (fun m => m.map (fun e => (e.2.1, e.2.2)))

/-- Modelled from the specification, NOT from the source: `get_shopping_list`
over the exact-arithmetic loop. -/
def get_shopping_list_exact (s : Store) (servings : Int) (recipe_set : List Recipe) :
    Except PyError (List (Ingredient × Rat)) :=
  (shoppingLoopExact s servings recipe_set []).map (fun m => m.map (fun e => (e.2.1, e.2.2)))

/-- Looking one ingredient's entry up in a returned quantity dict.
Python dict `==` is extensional, so order-independence claims are stated
through this lookup. -/
def totalFor (m : List (Ingredient × Rat)) (iid : Int) : Option (Ingredient × Rat) :=
  m.find? (fun p => p.1.ingredient_id == iid)

/-- `get_recipe_ingredient` (db_manager.py lines 405-442): the association
of one (recipe, ingredient) pair.  The returned dict holds the joined
Ingredient object and the quantity. -/
def get_recipe_ingredient (s : Store) (recipe ingredient : Int) :
    Except PyError (Option Ingredient × Rat) :=
  match get_recipe_by_id s recipe with
  | .error e => .error e
  | .ok _ =>
    match s.links.find?
        (fun row => row.recipe_id == recipe && row.ingredient_id == ingredient) with
    | some row => .ok (resolveIngredient s row.ingredient_id, row.ingredient_quantity)
    | none => .error .notFound

/-- Autoincrement of the association table's surrogate primary key. -/
def nextLinkId (s : Store) : Int :=
  (s.links.foldl (fun m row => max m row.recipe_ingredients_id) 0) + 1

/-- The schema-level insert (`session.add` + commit): the table carries no
uniqueness constraint on (recipe_id, ingredient_id), so the row is
appended unconditionally. -/
def insertLinkRow (s : Store) (row : RecipeIngredient) : Store :=
  { s with links := s.links ++ [row] }

/-- `add_recipe_ingredients` (db_manager.py lines 477-511): recipe existence
check, then the application-level duplicate check via
`get_recipe_ingredient` — NotFoundError means the pair is free and the row
is inserted; success means the pair exists and the code attempts
`raise IntegrityError("Ingredient already..")` (line 511).  That
constructor call itself raises TypeError: SQLAlchemy 2.0's IntegrityError
has no one-argument constructor (`DBAPIError.__init__` requires statement,
params and orig), so the duplicate branch actually raises TypeError and
never an IntegrityError. -/
def add_recipe_ingredients (s : Store) (recipe ingredient : Int) (qty : Rat) :
    Except PyError (Store × Int) :=
  match get_recipe_by_id s recipe with
  | .error e => .error e
  | .ok _ =>
    match get_recipe_ingredient s recipe ingredient with
    | .error .notFound =>
      let row : RecipeIngredient :=
        ⟨nextLinkId s, recipe, ingredient, qty⟩
      .ok (insertLinkRow s row, row.recipe_ingredients_id)
    | .error e => .error e
    | .ok _ => .error .typeError

/-- The data-model invariant of §3: no two association rows share the same
(recipe_id, ingredient_id) pair. -/
def noDupPair : List RecipeIngredient → Bool
  | [] => true
  | row :: rest =>
    (!rest.any (fun r2 => r2.recipe_id == row.recipe_id &&
                          r2.ingredient_id == row.ingredient_id)) && noDupPair rest

/-- Store-level statement of the pair-uniqueness invariant. -/
def pairUnique (s : Store) : Prop := noDupPair s.links = true

/-- `get_all_recipes` (`select(Recipe).order_by(recipe_id)`); the core
consumes the result as a set, so the ORDER BY is immaterial and the table
order is used. -/
def get_all_recipes (s : Store) : List Recipe := s.recipes

/-- `random.choice(seq)` driven by one number from the random stream:
IndexError on an empty sequence, else the element at the chosen index. -/
def pyChoice {α : Type} (l : List α) (r : Nat) : Except PyError α :=
  if h : l.length = 0 then .error .indexError
  else .ok (l.get ⟨r % l.length, Nat.mod_lt _ (Nat.pos_of_ne_zero h)⟩)

/-- `get_random_recipe` (db_manager.py lines 621-632): `random.choice` over
all recipes — IndexError, not a domain error, on an empty store. -/
def get_random_recipe (s : Store) (r : Nat) : Except PyError Recipe :=
  pyChoice s.recipes r

/-- `get_recipes_from_ingredient` (db_manager.py lines 634-650): recipes of
all association rows carrying the ingredient, `joinedload`-resolved. -/
def get_recipes_from_ingredient (s : Store) (ingredient_id : Int) : List Recipe :=
  (s.links.filter (fun row => row.ingredient_id == ingredient_id)).filterMap
    (fun row => s.recipes.find? (fun r => r.recipe_id == row.recipe_id))

/-- Python `set.update` on recipe sets; ORM identity makes membership
row-identity, i.e. recipe_id equality on store-resolved objects. -/
def setUnion (a b : List Recipe) : List Recipe :=
  b.foldl (fun acc x =>
    if acc.any (fun v => v.recipe_id == x.recipe_id) then acc else acc ++ [x]) a

/-- Python set difference on recipe sets (again by recipe identity). -/
def setDiff (a b : List Recipe) : List Recipe :=
  a.filter (fun r => !(b.any (fun v => v.recipe_id == r.recipe_id)))

/-- The `while len(recipe_list) < num_recipes` loop of `generate_meal_plan`
(db_manager.py lines 726-757), with explicit fuel standing for the loop's
own termination argument (C9 shows the supplied fuel is never exhausted).
`visited` is the insertion-ordered contents of the Python set
`recipe_list`.  The source's `except ValueError` guard wraps
`get_recipes_from_ingredient`, which raises nothing, so it has no
counterpart; the `get_all_recipe_ingredients` call sits outside any
guard and its exceptions propagate. -/
def mealPlanLoop (s : Store) (rng : Nat → Nat) (num_recipes : Int) :
    Nat → Nat → List Recipe → Recipe → Except PyError (List Recipe)
  | 0, _, visited, _ => .ok visited
  | fuel + 1, step, visited, current =>
    if (visited.length : Int) < num_recipes then
      match get_all_recipe_ingredients s current.recipe_id with
      | .error e => .error e
      | .ok recipe_ingredient =>
        let overlapping_recipes := recipe_ingredient.foldl
          (fun acc p => setUnion acc (get_recipes_from_ingredient s p.1.ingredient_id)) []
        let potential0 := setDiff overlapping_recipes visited
        if potential0.isEmpty && (get_all_recipes s).isEmpty then .ok visited
        else
          let potential_next_recipes :=
            if potential0.isEmpty then setDiff (get_all_recipes s) visited
            else potential0
          if potential_next_recipes.isEmpty then .ok visited
          else
            match pyChoice potential_next_recipes (rng step) with
            | .error e => .error e
            | .ok next_recipe =>
              mealPlanLoop s rng num_recipes fuel (step + 1)
                (visited ++ [next_recipe]) next_recipe
    else .ok visited

/-- `generate_meal_plan` (db_manager.py lines 706-757): empty plan for a
non-positive request, else a random start and the walk. -/
def generate_meal_plan (s : Store) (rng : Nat → Nat) (num_recipes : Int) :
    Except PyError (List Recipe) :=
  if num_recipes ≤ 0 then .ok []
  else
    match get_random_recipe s (rng 0) with
    | .error e => .error e
    | .ok first_recipe => mealPlanLoop s rng num_recipes num_recipes.toNat 1 [first_recipe] first_recipe

/-- Number of distinct recipe rows in the store (primary keys). -/
def distinctRecipeCount (s : Store) : Nat :=
  ((s.recipes.map (fun r => r.recipe_id)).dedup).length

/-- The deterministic random stream used by concrete runs. -/
def rngZero : Nat → Nat := fun _ => 0

end RecipeDb

namespace RecipeDb

/-- Sample ingredient: Flour (id 1). -/
def flour : Ingredient := ⟨1, "Flour", none, some "g"⟩

/-- Sample ingredient: Milk (id 2). -/
def milk : Ingredient := ⟨2, "Milk", none, some "ml"⟩

/-- The Pancakes recipe of the specification's end-to-end example (§8):
base servings 4. -/
def pancakes : Recipe := ⟨1, "Pancakes", none, "Mix and fry", 4, none, none, none, none, none, none⟩

/-- Store of the Pancakes example: Flour 200 and Milk 300 per 4 servings. -/
def stPancakes : Store := ⟨[flour, milk], [pancakes], [⟨1, 1, 1, 200⟩, ⟨2, 1, 2, 300⟩]⟩

/-- A recipe whose servings column holds the non-positive value -2. -/
def negRecipe : Recipe := ⟨1, "Broth", none, "Boil", -2, none, none, none, none, none, none⟩

/-- Store holding the negative-servings recipe with one Flour link. -/
def stNeg : Store := ⟨[flour], [negRecipe], [⟨1, 1, 1, 100⟩]⟩

/-- A recipe that exists but has no ingredient links. -/
def bareRecipe : Recipe := ⟨7, "Toast", none, "Toast it", 4, none, none, none, none, none, none⟩

/-- Store holding only the link-free recipe. -/
def stBare : Store := ⟨[], [bareRecipe], []⟩

/-- A store with no rows at all. -/
def emptyStore : Store := ⟨[], [], []⟩

/-- Walk start recipe without links (id 1, servings 2). -/
def walkA : Recipe := ⟨1, "Soup", none, "Simmer", 2, none, none, none, none, none, none⟩

/-- Second walk recipe (id 2, servings 4), holding the only link. -/
def walkB : Recipe := ⟨2, "Stew", none, "Stew it", 4, none, none, none, none, none, none⟩

/-- Store where the walk's start recipe has no ingredient links. -/
def stWalk : Store := ⟨[flour], [walkA, walkB], [⟨1, 2, 1, 50⟩]⟩

/-- Recipe A of the two-recipe store: servings 2, Flour 100. -/
def recA : Recipe := ⟨1, "Cake", none, "Bake", 2, none, none, none, none, none, none⟩

/-- Recipe B of the two-recipe store: servings 4, Flour 50 and Milk 80. -/
def recB : Recipe := ⟨2, "Shake", none, "Blend", 4, none, none, none, none, none, none⟩

/-- Two recipes sharing Flour; B additionally uses Milk. -/
def stTwo : Store :=
  ⟨[flour, milk], [recA, recB], [⟨1, 1, 1, 100⟩, ⟨2, 2, 1, 50⟩, ⟨3, 2, 2, 80⟩]⟩

/-- A recipe whose servings column holds 0. -/
def zeroRecipe : Recipe := ⟨1, "Void", none, "None", 0, none, none, none, none, none, none⟩

/-- Store holding the zero-servings recipe with one Flour link. -/
def stZero : Store := ⟨[flour], [zeroRecipe], [⟨1, 1, 1, 100⟩]⟩

/-- A recipe with base servings 49: 1/49 is not exactly representable in
binary64, so float scaling by 49/49 deviates from the exact value. -/
def pan49 : Recipe := ⟨1, "Batch", none, "Cook", 49, none, none, none, none, none, none⟩

/-- Store of the 49-servings recipe with one Flour link of quantity 100. -/
def stPan49 : Store := ⟨[flour], [pan49], [⟨1, 1, 1, 100⟩]⟩

/-- First single-serving recipe of the float-accumulation store. -/
def recT1 : Recipe := ⟨1, "TeaA", none, "Brew", 1, none, none, none, none, none, none⟩

/-- Second single-serving recipe of the float-accumulation store. -/
def recT2 : Recipe := ⟨2, "TeaB", none, "Brew", 1, none, none, none, none, none, none⟩

/-- Third single-serving recipe of the float-accumulation store. -/
def recT3 : Recipe := ⟨3, "TeaC", none, "Brew", 1, none, none, none, none, none, none⟩

/-- Three single-serving recipes sharing Flour with quantities equal to the
doubles 0.1, 0.2 and 0.3 (their exact binary64 values): float accumulation
of these is order-dependent. -/
def stTriple : Store :=
  ⟨[flour], [recT1, recT2, recT3],
   [⟨1, 1, 1, 3602879701896397 / 2 ^ 55⟩,
    ⟨2, 2, 1, 3602879701896397 / 2 ^ 54⟩,
    ⟨3, 3, 1, 5404319552844595 / 2 ^ 54⟩]⟩

end RecipeDb

namespace RecipeDb

/-- Whether one recipe of a shopping-list iteration completes without an
exception: its ingredient fetch succeeds and its servings are non-zero. -/
def recipeOkB (s : Store) (r : Recipe) : Bool :=
  exOk (get_all_recipe_ingredients s r.recipe_id) && !(r.recipe_servings == 0)

/-- Lookup in the ingredient_id-keyed accumulator of `get_shopping_list`. -/
def keyFind (acc : List (Int × Ingredient × Rat)) (iid : Int) : Option (Ingredient × Rat) :=
  (acc.find? (fun e => e.1 == iid)).map (fun e => e.2)

/-- Whether a recipe's resolved links mention the ingredient. -/
def touchesB (s : Store) (r : Recipe) (iid : Int) : Bool :=
  (resolvedLinks s r.recipe_id).any (fun p => p.1.ingredient_id == iid)

/-- One recipe's total contribution to one ingredient's exact-model
shopping-list entry: the exact sum of
`quantity * (servings / recipe.recipe_servings)` over its links carrying
that ingredient. -/
def contrib (s : Store) (servings : Int) (r : Recipe) (iid : Int) : Rat :=
  (((resolvedLinks s r.recipe_id).filter (fun p => p.1.ingredient_id == iid)).map
    (fun p => p.2 * ((servings : Rat) / (r.recipe_servings : Rat)))).sum

/-- Total contribution of a list of recipes to one ingredient. -/
def contribSum (s : Store) (servings : Int) (l : List Recipe) (iid : Int) : Rat :=
  (l.map (fun r => contrib s servings r iid)).sum

/-- Whether any recipe of the list mentions the ingredient. -/
def anyTouches (s : Store) (l : List Recipe) (iid : Int) : Bool :=
  l.any (fun r => touchesB s r iid)

/-- How a block of accumulation steps transforms one ingredient's entry:
an existing entry gains the block's contribution, an absent entry appears
(holding the store's ingredient object) iff the block touches the
ingredient. -/
def combineEntry : Option (Ingredient × Rat) → Bool → Rat → Option Ingredient →
    Option (Ingredient × Rat)
  | some (ing, q), _, c, _ => some (ing, q + c)
  | none, true, c, oi => oi.map (fun ing => (ing, c))
  | none, false, _, _ => none

/-- Every accumulator entry is keyed by its own ingredient's id. -/
def keysConsistent (acc : List (Int × Ingredient × Rat)) : Prop :=
  ∀ e ∈ acc, e.2.1.ingredient_id = e.1

lemma pow2le_iff (m : Int) (x : Rat) : pow2le m x = true ↔ (2 : Rat) ^ m ≤ x := by
  unfold pow2le
  by_cases hm : 0 ≤ m
  · rw [if_pos hm, decide_eq_true_eq, ← zpow_natCast (2 : Rat), Int.toNat_of_nonneg hm]
  · rw [if_neg hm, decide_eq_true_eq, ← zpow_natCast (2 : Rat),
      Int.toNat_of_nonneg (by omega : (0 : Int) ≤ -m), zpow_neg, ← div_eq_mul_inv,
      one_le_div (zpow_pos (by norm_num : (0 : Rat) < 2) m)]

lemma findExp_correct (x : Rat) (e : Int)
    (hx1 : (2 : Rat) ^ e ≤ x) (hx2 : x < (2 : Rat) ^ (e + 1))
    (hlo : -1200 ≤ e) (hhi : e < 1200) :
    findExp x (-1200) 1200 = e := by
  have main : ∀ (n : Nat) (lo hi : Int), (hi - lo).toNat ≤ n → lo ≤ e → e < hi →
      findExp x lo hi = e := by
    intro n
    induction n with
    | zero => intro lo hi h1 h2 h3; omega
    | succ n ih =>
      intro lo hi h1 h2 h3
      rw [findExp]
      by_cases hterm : hi ≤ lo + 1
      · rw [dif_pos hterm]; omega
      · rw [dif_neg hterm]
        simp only
        by_cases hc : (2 : Rat) ^ ((lo + hi) / 2) ≤ x
        · rw [if_pos ((pow2le_iff _ _).mpr hc)]
          refine ih _ _ (by omega) ?_ h3
          have hlt : (2 : Rat) ^ ((lo + hi) / 2) < (2 : Rat) ^ (e + 1) :=
            lt_of_le_of_lt hc hx2
          have := (zpow_lt_zpow_iff_right₀ (by norm_num : (1 : Rat) < 2)).mp hlt
          omega
        · rw [if_neg (fun hb => hc ((pow2le_iff _ _).mp hb))]
          refine ih _ _ (by omega) h2 ?_
          have hlt : (2 : Rat) ^ e < (2 : Rat) ^ ((lo + hi) / 2) :=
            lt_of_le_of_lt hx1 (lt_of_not_le hc)
          exact (zpow_lt_zpow_iff_right₀ (by norm_num : (1 : Rat) < 2)).mp hlt
  exact main 2400 (-1200) 1200 (by omega) hlo hhi

lemma scaleBranch (x : Rat) (a b : Int) (hab : b = -a) :
    (if 0 ≤ a then x * 2 ^ a.toNat else x / 2 ^ b.toNat) = x * (2 : Rat) ^ a := by
  by_cases ha : 0 ≤ a
  · rw [if_pos ha, ← zpow_natCast (2 : Rat), Int.toNat_of_nonneg ha]
  · rw [if_neg ha, hab, ← zpow_natCast (2 : Rat),
      Int.toNat_of_nonneg (by omega : (0 : Int) ≤ -a), zpow_neg, div_inv_eq_mul]

lemma divBranch (x : Rat) (a b : Int) (hab : b = -a) :
    (if 0 ≤ a then x / 2 ^ a.toNat else x * 2 ^ b.toNat) = x * (2 : Rat) ^ (-a) := by
  by_cases ha : 0 ≤ a
  · rw [if_pos ha, ← zpow_natCast (2 : Rat), Int.toNat_of_nonneg ha, zpow_neg, ← div_eq_mul_inv]
  · rw [if_neg ha, hab, ← zpow_natCast (2 : Rat),
      Int.toNat_of_nonneg (by omega : (0 : Int) ≤ -a)]

/-- Evaluation principle for `fl64` at a positive argument: supplying the
binary exponent `e` and the integer part `n0` of the 53-bit-aligned
mantissa pins the rounding down to elementary rational comparisons. -/
lemma fl64_eval (x r : Rat) (e n0 : Int)
    (hx1 : (2 : Rat) ^ e ≤ x) (hx2 : x < (2 : Rat) ^ (e + 1))
    (hlo : -1200 ≤ e) (hhi : e < 1200)
    (hn0 : (n0 : Rat) ≤ x * (2 : Rat) ^ (52 - e))
    (hn1 : x * (2 : Rat) ^ (52 - e) < (n0 : Rat) + 1)
    (hr : (((if x * (2 : Rat) ^ (52 - e) - (n0 : Rat) < 1/2 then n0
             else if (1 : Rat)/2 < x * (2 : Rat) ^ (52 - e) - (n0 : Rat) then n0 + 1
             else if n0 % 2 = 0 then n0 else n0 + 1) : Int) : Rat) * (2 : Rat) ^ (-(52 - e)) = r) :
    fl64 x = r := by
  have hxpos : 0 < x := lt_of_lt_of_le (zpow_pos (by norm_num : (0 : Rat) < 2) e) hx1
  unfold fl64
  rw [if_neg (ne_of_gt hxpos), if_neg (not_lt.mpr (le_of_lt hxpos))]
  unfold flPos
  rw [findExp_correct x e hx1 hx2 hlo hhi]
  simp only
  rw [scaleBranch x (52 - e) (e - 52) (by ring)]
  rw [show ⌊x * (2 : Rat) ^ (52 - e)⌋ = n0 from Int.floor_eq_iff.mpr ⟨hn0, by exact_mod_cast hn1⟩]
  rw [divBranch _ (52 - e) (e - 52) (by ring)]
  exact hr

lemma fl64_neg (x : Rat) : fl64 (-x) = -fl64 x := by
  unfold fl64
  rcases lt_trichotomy x 0 with h | h | h
  · rw [if_neg (fun hc => (ne_of_lt h) (neg_eq_zero.mp hc)),
      if_neg (not_lt.mpr (le_of_lt (neg_pos.mpr h))),
      if_neg (ne_of_lt h), if_pos h, neg_neg]
  · rw [h, neg_zero, if_pos rfl, if_pos rfl, neg_zero]
  · rw [if_neg (fun hc => (ne_of_gt h) (neg_eq_zero.mp hc)),
      if_pos (neg_lt_zero.mpr h), neg_neg,
      if_neg (ne_of_gt h), if_neg (not_lt.mpr (le_of_lt h))]

lemma fv_half : fl64 (1/2 : Rat) = 1/2 := by
  apply fl64_eval _ _ (-1) 4503599627370496 <;> norm_num

lemma fv_one : fl64 (1 : Rat) = 1 := by
  apply fl64_eval _ _ 0 4503599627370496 <;> norm_num

lemma fv_two : fl64 (2 : Rat) = 2 := by
  apply fl64_eval _ _ 1 4503599627370496 <;> norm_num

lemma fv_four : fl64 (4 : Rat) = 4 := by
  apply fl64_eval _ _ 2 4503599627370496 <;> norm_num

lemma fv_eight : fl64 (8 : Rat) = 8 := by
  apply fl64_eval _ _ 3 4503599627370496 <;> norm_num

lemma fv_fortynine : fl64 (49 : Rat) = 49 := by
  apply fl64_eval _ _ 5 6896136929411072 <;> norm_num

lemma fv_hundred : fl64 (100 : Rat) = 100 := by
  apply fl64_eval _ _ 6 7036874417766400 <;> norm_num

lemma fv_twohundred : fl64 (200 : Rat) = 200 := by
  apply fl64_eval _ _ 7 7036874417766400 <;> norm_num

lemma fv_threehundred : fl64 (300 : Rat) = 300 := by
  apply fl64_eval _ _ 8 5277655813324800 <;> norm_num

/-- `1.0 / -2` computes to the double -0.5. -/
lemma fop_div1_neg2 : fdiv64 (1 : Rat) (-2) = -(1/2) := by
  unfold fdiv64
  rw [show (1 : Rat) / (-2) = -(1/2) from by norm_num, fl64_neg, fv_half]

/-- `-0.5 * 4.0` computes to the double -2.0. -/
lemma fop_mul_neghalf_4 : fmul64 (-(2 : Rat)⁻¹) 4 = -2 := by
  unfold fmul64
  rw [show (-(2 : Rat)⁻¹ * 4 : Rat) = -(2 : Rat) from by norm_num, fl64_neg, fv_two]

/-- `100.0 * -2.0` computes to the double -200.0. -/
lemma fop_mul_100_neg2 : fmul64 (100 : Rat) (-2) = -200 := by
  unfold fmul64
  rw [show ((100 : Rat) * (-2)) = -(200 : Rat) from by norm_num, fl64_neg, fv_twohundred]

/-- `1.0 / 4` computes to the double 0.25 (exact). -/
lemma fop_div1_4 : fdiv64 (1 : Rat) 4 = 1/4 := by
  unfold fdiv64
  rw [show (1 : Rat) / 4 = (1/4 : Rat) from by norm_num]
  apply fl64_eval _ _ (-2) 4503599627370496 <;> norm_num

/-- `0.25 * 8.0` computes to the double 2.0 (exact). -/
lemma fop_mul_qtr_8 : fmul64 ((4 : Rat)⁻¹) 8 = 2 := by
  unfold fmul64
  rw [show (((4 : Rat)⁻¹) * 8) = (2 : Rat) from by norm_num, fv_two]

/-- `0.25 * 4.0` computes to the double 1.0 (exact). -/
lemma fop_mul_qtr_4 : fmul64 ((4 : Rat)⁻¹) 4 = 1 := by
  unfold fmul64
  rw [show (((4 : Rat)⁻¹) * 4) = (1 : Rat) from by norm_num, fv_one]

/-- `200.0 * 2.0` computes to the double 400.0 (exact). -/
lemma fop_mul_200_2 : fmul64 (200 : Rat) 2 = 400 := by
  unfold fmul64
  rw [show ((200 : Rat) * 2) = (400 : Rat) from by norm_num]
  apply fl64_eval _ _ 8 7036874417766400 <;> norm_num

/-- `300.0 * 2.0` computes to the double 600.0 (exact). -/
lemma fop_mul_300_2 : fmul64 (300 : Rat) 2 = 600 := by
  unfold fmul64
  rw [show ((300 : Rat) * 2) = (600 : Rat) from by norm_num]
  apply fl64_eval _ _ 9 5277655813324800 <;> norm_num

/-- `1 / 49` computes to the double 0.02040816326530612, which is NOT the
exact rational 1/49: it is 5882252574524729 / 2^58. -/
lemma fop_div1_49 : fdiv64 (1 : Rat) 49 = 5882252574524729 / 2 ^ 58 := by
  unfold fdiv64
  apply fl64_eval _ _ (-6) 5882252574524729 <;> norm_num

/-- `(1/49) * 49.0` in doubles computes to 0.9999999999999999
(= (2^53 - 1) / 2^53), not 1.0. -/
lemma fop_mul_recip49_49 :
    fmul64 (5882252574524729 / 2 ^ 58 : Rat) 49 = 9007199254740991 / 2 ^ 53 := by
  unfold fmul64
  apply fl64_eval _ _ (-1) 9007199254740991 <;> norm_num

/-- `100.0 * 0.9999999999999999` computes to the double
99.99999999999999 (= 7036874417766399 / 2^46), not 100.0. -/
lemma fop_mul_100_scale49 :
    fmul64 (100 : Rat) (9007199254740991 / 2 ^ 53) = 7036874417766399 / 2 ^ 46 := by
  unfold fmul64
  apply fl64_eval _ _ 6 7036874417766399 <;> norm_num

/-- `49 / 49` computes to the double 1.0 exactly. -/
lemma fop_div49_49 : fdiv64 (49 : Rat) 49 = 1 := by
  unfold fdiv64
  rw [show (49 : Rat) / 49 = (1 : Rat) from by norm_num, fv_one]

/-- `1 / 1` computes to the double 1.0 exactly. -/
lemma fop_div1_1 : fdiv64 (1 : Rat) 1 = 1 := by
  unfold fdiv64
  rw [show (1 : Rat) / 1 = (1 : Rat) from by norm_num, fv_one]

/-- `100.0 * 1.0` is exact. -/
lemma fop_mul_100_1 : fmul64 (100 : Rat) 1 = 100 := by
  unfold fmul64
  rw [show ((100 : Rat) * 1) = (100 : Rat) from by norm_num, fv_hundred]

/-- `0.0 + 100.0` is exact. -/
lemma fop_add0_100 : fadd64 (0 : Rat) 100 = 100 := by
  unfold fadd64
  rw [show ((0 : Rat) + 100) = (100 : Rat) from by norm_num, fv_hundred]

/-- The double 0.1 times 1.0 is exact. -/
lemma fop_mul_q1_1 :
    fmul64 (3602879701896397 / 2 ^ 55 : Rat) 1 = 3602879701896397 / 2 ^ 55 := by
  unfold fmul64
  rw [show ((3602879701896397 / 2 ^ 55 : Rat) * 1) = (3602879701896397 / 2 ^ 55 : Rat)
    from by norm_num]
  apply fl64_eval _ _ (-4) 7205759403792794 <;> norm_num

/-- The double 0.2 times 1.0 is exact. -/
lemma fop_mul_q2_1 :
    fmul64 (3602879701896397 / 2 ^ 54 : Rat) 1 = 3602879701896397 / 2 ^ 54 := by
  unfold fmul64
  rw [show ((3602879701896397 / 2 ^ 54 : Rat) * 1) = (3602879701896397 / 2 ^ 54 : Rat)
    from by norm_num]
  apply fl64_eval _ _ (-3) 7205759403792794 <;> norm_num

/-- The double 0.3 times 1.0 is exact. -/
lemma fop_mul_q3_1 :
    fmul64 (5404319552844595 / 2 ^ 54 : Rat) 1 = 5404319552844595 / 2 ^ 54 := by
  unfold fmul64
  rw [show ((5404319552844595 / 2 ^ 54 : Rat) * 1) = (5404319552844595 / 2 ^ 54 : Rat)
    from by norm_num]
  apply fl64_eval _ _ (-2) 5404319552844595 <;> norm_num

/-- `0.0 + 0.1` is exact. -/
lemma fop_add0_q1 :
    fadd64 (0 : Rat) (3602879701896397 / 2 ^ 55) = 3602879701896397 / 2 ^ 55 := by
  unfold fadd64
  rw [show ((0 : Rat) + 3602879701896397 / 2 ^ 55) = (3602879701896397 / 2 ^ 55 : Rat)
    from by norm_num]
  apply fl64_eval _ _ (-4) 7205759403792794 <;> norm_num

/-- `0.0 + 0.3` is exact. -/
lemma fop_add0_q3 :
    fadd64 (0 : Rat) (5404319552844595 / 2 ^ 54) = 5404319552844595 / 2 ^ 54 := by
  unfold fadd64
  rw [show ((0 : Rat) + 5404319552844595 / 2 ^ 54) = (5404319552844595 / 2 ^ 54 : Rat)
    from by norm_num]
  apply fl64_eval _ _ (-2) 5404319552844595 <;> norm_num

/-- `0.1 + 0.2` in doubles is 0.30000000000000004
(= 1351079888211149 / 2^52, a round-to-even tie), not 0.3. -/
lemma fop_add_q1_q2 :
    fadd64 (3602879701896397 / 2 ^ 55 : Rat) (3602879701896397 / 2 ^ 54)
      = 1351079888211149 / 2 ^ 52 := by
  unfold fadd64
  apply fl64_eval _ _ (-2) 5404319552844595 <;> norm_num

/-- `(0.1 + 0.2) + 0.3` in doubles is 0.6000000000000001
(= 1351079888211149 / 2^51, again a tie). -/
lemma fop_add_s12_q3 :
    fadd64 (1351079888211149 / 2 ^ 52 : Rat) (5404319552844595 / 2 ^ 54)
      = 1351079888211149 / 2 ^ 51 := by
  unfold fadd64
  apply fl64_eval _ _ (-1) 5404319552844595 <;> norm_num

/-- `0.3 + 0.2` in doubles is exactly 0.5. -/
lemma fop_add_q3_q2 :
    fadd64 (5404319552844595 / 2 ^ 54 : Rat) (3602879701896397 / 2 ^ 54) = 1/2 := by
  unfold fadd64
  rw [show ((5404319552844595 / 2 ^ 54 : Rat) + 3602879701896397 / 2 ^ 54) = (1/2 : Rat)
    from by norm_num, fv_half]

/-- `(0.3 + 0.2) + 0.1` in doubles is 0.6 (= 5404319552844595 / 2^53):
a different value than the other summation order. -/
lemma fop_add_half_q1 :
    fadd64 ((2 : Rat)⁻¹) (3602879701896397 / 2 ^ 55) = 5404319552844595 / 2 ^ 53 := by
  unfold fadd64
  apply fl64_eval _ _ (-1) 5404319552844595 <;> norm_num

lemma get_recipe_by_id_error {s : Store} {rid : Int} {e : PyError}
    (h : get_recipe_by_id s rid = .error e) : e = .notFound := by
  unfold get_recipe_by_id at h
  cases hf : s.recipes.find? (fun r => r.recipe_id == rid) with
  | some r => rw [hf] at h; cases h
  | none => rw [hf] at h; cases h; rfl

lemma gari_ok_elim {s : Store} {rid : Int} {ris : List (Ingredient × Rat)}
    (h : get_all_recipe_ingredients s rid = .ok ris) :
    ris = resolvedLinks s rid ∧ linkRowsFor s rid ≠ [] ∧
      exOk (get_recipe_by_id s rid) = true := by
  unfold get_all_recipe_ingredients at h
  cases hg : get_recipe_by_id s rid with
  | error e => rw [hg] at h; cases h
  | ok rec =>
    rw [hg] at h
    by_cases he : (linkRowsFor s rid).isEmpty
    · rw [if_pos he] at h; cases h
    · rw [if_neg he] at h
      cases h
      refine ⟨rfl, ?_, rfl⟩
      intro hnil
      exact he (by rw [hnil]; rfl)

lemma mem_resolvedLinks_resolve {s : Store} {rid : Int} {p : Ingredient × Rat}
    (hp : p ∈ resolvedLinks s rid) :
    resolveIngredient s p.1.ingredient_id = some p.1 := by
  unfold resolvedLinks at hp
  rcases List.mem_filterMap.mp hp with ⟨row, _, hrow⟩
  rcases Option.map_eq_some'.mp hrow with ⟨ing, hres, hpair⟩
  have hid : ing.ingredient_id = row.ingredient_id := by
    have := List.find?_some hres
    simpa using this
  have hp1 : p.1 = ing := by rw [← hpair]
  rw [hp1, hid]
  exact hres

lemma gari_resolve {s : Store} {rid : Int} {ris : List (Ingredient × Rat)}
    (h : get_all_recipe_ingredients s rid = .ok ris) :
    ∀ p ∈ ris, resolveIngredient s p.1.ingredient_id = some p.1 := by
  intro p hp
  rw [(gari_ok_elim h).1] at hp
  exact mem_resolvedLinks_resolve hp

lemma noDupPair_iff_pairwise {l : List RecipeIngredient} :
    noDupPair l = true ↔
      l.Pairwise (fun a b => ¬(a.recipe_id = b.recipe_id ∧ a.ingredient_id = b.ingredient_id)) := by
  induction l with
  | nil => simp [noDupPair]
  | cons row rest ih =>
    simp only [noDupPair, Bool.and_eq_true, Bool.not_eq_true', List.pairwise_cons]
    constructor
    · rintro ⟨hany, hrest⟩
      refine ⟨?_, ih.mp hrest⟩
      intro b hb hcl
      have : rest.any (fun r2 => r2.recipe_id == row.recipe_id &&
          r2.ingredient_id == row.ingredient_id) = true :=
        List.any_eq_true.mpr ⟨b, hb, by simp [hcl.1, hcl.2]⟩
      rw [this] at hany
      cases hany
    · rintro ⟨hhead, hrest⟩
      refine ⟨?_, ih.mpr hrest⟩
      by_contra hc
      have hany : rest.any (fun r2 => r2.recipe_id == row.recipe_id &&
          r2.ingredient_id == row.ingredient_id) = true := by
        cases hv : rest.any (fun r2 => r2.recipe_id == row.recipe_id &&
            r2.ingredient_id == row.ingredient_id)
        · exact absurd hv hc
        · rfl
      rcases List.any_eq_true.mp hany with ⟨b, hb, hbp⟩
      simp only [Bool.and_eq_true, beq_iff_eq] at hbp
      exact hhead b hb ⟨hbp.1.symm, hbp.2.symm⟩

lemma resolvedLinks_keys_pairwise {s : Store} {rid : Int} (hU : pairUnique s) :
    (resolvedLinks s rid).Pairwise
      (fun p q => p.1.ingredient_id ≠ q.1.ingredient_id) := by
  have hrows : (linkRowsFor s rid).Pairwise
      (fun a b => ¬(a.recipe_id = b.recipe_id ∧ a.ingredient_id = b.ingredient_id)) :=
    (noDupPair_iff_pairwise.mp hU).filter _
  have hmem : ∀ row ∈ linkRowsFor s rid, row.recipe_id = rid := by
    intro row hrow
    have := (List.mem_filter.mp hrow).2
    simpa using this
  have hdist : (linkRowsFor s rid).Pairwise
      (fun a b => a.ingredient_id ≠ b.ingredient_id) := by
    refine List.Pairwise.imp_of_mem ?_ hrows
    intro a b ha hb hR hEq
    exact hR ⟨(hmem a ha).trans (hmem b hb).symm, hEq⟩
  unfold resolvedLinks
  rw [List.pairwise_filterMap]
  refine List.Pairwise.imp_of_mem ?_ hdist
  intro a b _ _ hR x hx y hy
  rcases Option.map_eq_some'.mp hx with ⟨ia, hia, hxa⟩
  rcases Option.map_eq_some'.mp hy with ⟨ib, hib, hyb⟩
  have hida : ia.ingredient_id = a.ingredient_id := by
    have := List.find?_some hia; simpa using this
  have hidb : ib.ingredient_id = b.ingredient_id := by
    have := List.find?_some hib; simpa using this
  rw [← hxa, ← hyb]
  simpa [hida, hidb] using hR

end RecipeDb

namespace RecipeDb

lemma foldl_dictSet_fresh (f : Ingredient × Rat → Rat) :
    ∀ (l acc : List (Ingredient × Rat)),
      l.Pairwise (fun p q => p.1.ingredient_id ≠ q.1.ingredient_id) →
      (∀ p ∈ l, ∀ q ∈ acc, q.1.ingredient_id ≠ p.1.ingredient_id) →
      l.foldl (fun d p => dictSet d p.1 (f p)) acc
        = acc ++ l.map (fun p => (p.1, f p)) := by
  intro l
  induction l with
  | nil => intro acc _ _; simp
  | cons p rest ih =>
    intro acc hpw hfresh
    have hany : (acc.any (fun q => q.1 == p.1)) = false := by
      cases hv : acc.any (fun q => q.1 == p.1)
      · rfl
      · exfalso
        rcases List.any_eq_true.mp hv with ⟨q, hq, hqp⟩
        have heq : q.1 = p.1 := by simpa using hqp
        exact hfresh p (List.mem_cons_self _ _) q hq (by rw [heq])
    have hstep : dictSet acc p.1 (f p) = acc ++ [(p.1, f p)] := by
      unfold dictSet; rw [hany]; simp
    simp only [List.foldl_cons, hstep]
    rw [ih (acc ++ [(p.1, f p)]) (List.pairwise_cons.mp hpw).2 ?_]
    · simp
    · intro r hr q hq
      rcases List.mem_append.mp hq with hq | hq
      · exact hfresh r (List.mem_cons_of_mem _ hr) q hq
      · have : q = (p.1, f p) := by simpa using hq
        rw [this]
        exact (List.pairwise_cons.mp hpw).1 r hr

end RecipeDb

namespace RecipeDb

lemma foldl_addQtyExact_fresh (v : Ingredient × Rat → Rat) :
    ∀ (l : List (Ingredient × Rat)) (acc : List (Int × Ingredient × Rat)),
      l.Pairwise (fun p q => p.1.ingredient_id ≠ q.1.ingredient_id) →
      (∀ p ∈ l, ∀ e ∈ acc, e.1 ≠ p.1.ingredient_id) →
      l.foldl (fun a p => addQtyExact a p.1 (v p)) acc
        = acc ++ l.map (fun p => (p.1.ingredient_id, p.1, 0 + v p)) := by
  intro l
  induction l with
  | nil => intro acc _ _; simp
  | cons p rest ih =>
    intro acc hpw hfresh
    have hany : (acc.any (fun e => e.1 == p.1.ingredient_id)) = false := by
      cases hv : acc.any (fun e => e.1 == p.1.ingredient_id)
      · rfl
      · exfalso
        rcases List.any_eq_true.mp hv with ⟨q, hq, hqp⟩
        have heq : q.1 = p.1.ingredient_id := by simpa using hqp
        exact hfresh p (List.mem_cons_self _ _) q hq heq
    have hstep : addQtyExact acc p.1 (v p) = acc ++ [(p.1.ingredient_id, p.1, 0 + v p)] := by
      unfold addQtyExact; rw [hany]; simp
    simp only [List.foldl_cons, hstep]
    rw [ih (acc ++ [(p.1.ingredient_id, p.1, 0 + v p)]) (List.pairwise_cons.mp hpw).2 ?_]
    · simp
    · intro r hr q hq
      rcases List.mem_append.mp hq with hq | hq
      · exact hfresh r (List.mem_cons_of_mem _ hr) q hq
      · have : q = (p.1.ingredient_id, p.1, 0 + v p) := by simpa using hq
        rw [this]
        exact (List.pairwise_cons.mp hpw).1 r hr

lemma shoppingLoop_exOk (s : Store) (servings : Int) :
    ∀ (l : List Recipe) (acc : List (Int × Ingredient × Rat)),
      exOk (shoppingLoop s servings l acc) = l.all (recipeOkB s) := by
  intro l
  induction l with
  | nil => intro acc; simp [shoppingLoop, exOk]
  | cons r rest ih =>
    intro acc
    simp only [shoppingLoop]
    cases hg : get_all_recipe_ingredients s r.recipe_id with
    | error e => simp [exOk, recipeOkB, hg]
    | ok ingredients =>
      by_cases hz : r.recipe_servings == 0
      · simp [exOk, recipeOkB, hg, hz]
      · simp only [hg]
        rw [if_neg hz, ih]
        simp [recipeOkB, hg, hz, exOk]

lemma get_shopping_list_exOk (s : Store) (servings : Int) (l : List Recipe) :
    exOk (get_shopping_list s servings l) = l.all (recipeOkB s) := by
  unfold get_shopping_list
  rw [← shoppingLoop_exOk s servings l []]
  cases shoppingLoop s servings l [] with
  | error e => rfl
  | ok m => rfl

lemma shoppingLoopExact_exOk (s : Store) (servings : Int) :
    ∀ (l : List Recipe) (acc : List (Int × Ingredient × Rat)),
      exOk (shoppingLoopExact s servings l acc) = l.all (recipeOkB s) := by
  intro l
  induction l with
  | nil => intro acc; simp [shoppingLoopExact, exOk]
  | cons r rest ih =>
    intro acc
    simp only [shoppingLoopExact]
    cases hg : get_all_recipe_ingredients s r.recipe_id with
    | error e => simp [exOk, recipeOkB, hg]
    | ok ingredients =>
      by_cases hz : r.recipe_servings == 0
      · simp [exOk, recipeOkB, hg, hz]
      · simp only [hg]
        rw [if_neg hz, ih]
        simp [recipeOkB, hg, hz, exOk]

lemma get_shopping_list_exact_exOk (s : Store) (servings : Int) (l : List Recipe) :
    exOk (get_shopping_list_exact s servings l) = l.all (recipeOkB s) := by
  unfold get_shopping_list_exact
  rw [← shoppingLoopExact_exOk s servings l []]
  cases shoppingLoopExact s servings l [] with
  | error e => rfl
  | ok m => rfl

end RecipeDb

namespace RecipeDb

lemma addQtyExact_keyFind (a : List (Int × Ingredient × Rat)) (ing : Ingredient)
    (v : Rat) (iid : Int) :
    keyFind (addQtyExact a ing v) iid =
      if ing.ingredient_id == iid then
        (keyFind a iid).elim (some (ing, 0 + v)) (fun iq => some (iq.1, iq.2 + v))
      else keyFind a iid := by
  unfold addQtyExact
  cases h : a.any (fun e => e.1 == ing.ingredient_id) with
  | false =>
    rw [if_neg (by simp [h])]
    unfold keyFind
    rw [List.find?_append]
    by_cases hi : ing.ingredient_id = iid
    · have hb : (ing.ingredient_id == iid) = true := by simp [hi]
      have hnone : a.find? (fun e => e.1 == iid) = none := by
        rw [List.find?_eq_none]
        intro e he hpred
        have h1 : e.1 = iid := by simpa using hpred
        have := List.any_eq_false.mp h e he
        rw [h1, hi] at this
        simp at this
      rw [hnone, if_pos hb]
      simp [List.find?, hb]
    · have hb : (ing.ingredient_id == iid) = false := by simp [hi]
      rw [if_neg (by simp [hb])]
      have hsingle : ([(ing.ingredient_id, ing, 0 + v)].find? (fun e => e.1 == iid)) = none := by
        simp [List.find?, hb]
      rw [hsingle, Option.or_none]
  | true =>
    rw [if_pos rfl]
    unfold keyFind
    rw [List.find?_map]
    have hcomp : ((fun (e : Int × Ingredient × Rat) => e.1 == iid) ∘
        (fun (e : Int × Ingredient × Rat) =>
          if e.1 == ing.ingredient_id then (e.1, e.2.1, e.2.2 + v) else e))
        = (fun (e : Int × Ingredient × Rat) => e.1 == iid) := by
      funext e
      simp only [Function.comp]
      by_cases hp : e.1 = ing.ingredient_id
      · simp [hp]
      · simp [hp]
    rw [hcomp]
    by_cases hi : ing.ingredient_id = iid
    · have hb : (ing.ingredient_id == iid) = true := by simp [hi]
      rcases List.any_eq_true.mp h with ⟨e0, he0, hp0⟩
      have hsome : (a.find? (fun e => e.1 == iid)).isSome := by
        rw [List.find?_isSome]
        exact ⟨e0, he0, by rw [← hi]; exact hp0⟩
      rcases Option.isSome_iff_exists.mp hsome with ⟨ef, hef⟩
      have hkey : ef.1 = iid := by simpa using List.find?_some hef
      rw [if_pos hb, hef]
      have hefb : (ef.1 == ing.ingredient_id) = true := by simp [hkey, hi]
      simp [hefb]
      rw [if_pos (hkey.trans hi.symm)]
    · have hb : (ing.ingredient_id == iid) = false := by simp [hi]
      rw [if_neg (by simp [hb])]
      cases hf : a.find? (fun e => e.1 == iid) with
      | none => simp [hf]
      | some ef =>
        have hkey : ef.1 = iid := by simpa using List.find?_some hf
        have hne : (ef.1 == ing.ingredient_id) = false := by
          simp [hkey]
          intro hc
          exact hi hc.symm
        simp [hf, hne]
        rw [if_neg (fun hc => hi (hc.symm.trans hkey))]

end RecipeDb

namespace RecipeDb

lemma foldl_addQtyExact_keyFind (s : Store) (mult : Rat) (iid : Int) :
    ∀ (ris : List (Ingredient × Rat)) (acc : List (Int × Ingredient × Rat)),
      (∀ p ∈ ris, resolveIngredient s p.1.ingredient_id = some p.1) →
      keyFind (ris.foldl (fun a p => addQtyExact a p.1 (p.2 * mult)) acc) iid =
        combineEntry (keyFind acc iid)
          (ris.any (fun p => p.1.ingredient_id == iid))
          (((ris.filter (fun p => p.1.ingredient_id == iid)).map (fun p => p.2 * mult)).sum)
          (resolveIngredient s iid) := by
  intro ris
  induction ris with
  | nil =>
    intro acc _
    simp only [List.foldl_nil, List.any_nil, List.filter_nil, List.map_nil, List.sum_nil]
    cases hk : keyFind acc iid with
    | none => rfl
    | some iq => simp [combineEntry]
  | cons p rest ih =>
    intro acc hres
    simp only [List.foldl_cons]
    rw [ih (addQtyExact acc p.1 (p.2 * mult)) (fun q hq => hres q (List.mem_cons_of_mem _ hq))]
    rw [addQtyExact_keyFind]
    by_cases hp : p.1.ingredient_id = iid
    · have hb : (p.1.ingredient_id == iid) = true := by simp [hp]
      rw [if_pos hb]
      have hoi : resolveIngredient s iid = some p.1 := by
        rw [← hp]; exact hres p (List.mem_cons_self _ _)
      simp only [List.any_cons, hb, Bool.true_or, List.filter_cons, hb, if_pos,
        List.map_cons, List.sum_cons]
      cases hk : keyFind acc iid with
      | none => simp [combineEntry, hoi, Option.elim, add_assoc, zero_add]
      | some iq => simp [combineEntry, Option.elim, add_assoc]
    · have hb : (p.1.ingredient_id == iid) = false := by simp [hp]
      rw [if_neg (by simp [hb])]
      simp only [List.any_cons, hb, Bool.false_or, List.filter_cons, hb,
        Bool.false_eq_true, if_false]

lemma combineEntry_compose (x : Option (Ingredient × Rat)) (t1 t2 : Bool)
    (c1 c2 : Rat) (oi : Option Ingredient) (h : t1 = false → c1 = 0) :
    combineEntry (combineEntry x t1 c1 oi) t2 c2 oi
      = combineEntry x (t1 || t2) (c1 + c2) oi := by
  cases x with
  | some iq => simp [combineEntry, add_assoc]
  | none =>
    cases t1 with
    | true =>
      cases oi with
      | some ing => simp [combineEntry]
      | none =>
        cases t2 with
        | true => simp [combineEntry]
        | false => simp [combineEntry]
    | false =>
      rw [h rfl, zero_add]
      cases t2 with
      | true => simp [combineEntry]
      | false => simp [combineEntry]

lemma contrib_eq_zero_of_not_touches {s : Store} {servings : Int} {r : Recipe}
    {iid : Int} (h : touchesB s r iid = false) : contrib s servings r iid = 0 := by
  unfold contrib
  have : (resolvedLinks s r.recipe_id).filter (fun p => p.1.ingredient_id == iid) = [] := by
    rw [List.filter_eq_nil_iff]
    intro p hp hpred
    have := List.any_eq_false.mp h p hp
    exact this hpred
  rw [this]
  simp

lemma shoppingLoopExact_keyFind (s : Store) (servings : Int) (iid : Int) :
    ∀ (l : List Recipe) (acc : List (Int × Ingredient × Rat)) (m : List (Int × Ingredient × Rat)),
      shoppingLoopExact s servings l acc = .ok m →
      keyFind m iid = combineEntry (keyFind acc iid) (anyTouches s l iid)
        (contribSum s servings l iid) (resolveIngredient s iid) := by
  intro l
  induction l with
  | nil =>
    intro acc m hm
    cases hm
    simp only [anyTouches, List.any_nil, contribSum, List.map_nil, List.sum_nil]
    cases hk : keyFind acc iid with
    | none => rfl
    | some iq => simp [combineEntry]
  | cons r rest ih =>
    intro acc m hm
    simp only [shoppingLoopExact] at hm
    cases hg : get_all_recipe_ingredients s r.recipe_id with
    | error e => rw [hg] at hm; cases hm
    | ok ris =>
      simp only [hg] at hm
      by_cases hz : r.recipe_servings == 0
      · rw [if_pos hz] at hm; cases hm
      · rw [if_neg hz] at hm
        rw [ih _ m hm]
        have hris : ris = resolvedLinks s r.recipe_id := (gari_ok_elim hg).1
        rw [foldl_addQtyExact_keyFind s _ iid ris acc (gari_resolve hg)]
        rw [combineEntry_compose _ _ _ _ _ _ ?_]
        · have hany : ris.any (fun p => p.1.ingredient_id == iid) = touchesB s r iid := by
            rw [hris]; rfl
          have hcontrib : ((ris.filter (fun p => p.1.ingredient_id == iid)).map
              (fun p => p.2 * ((servings : Rat) / (r.recipe_servings : Rat)))).sum
              = contrib s servings r iid := by
            rw [hris]; rfl
          rw [hany, hcontrib]
          simp only [anyTouches, List.any_cons, contribSum, List.map_cons, List.sum_cons]
        · intro hfalse
          have htc : touchesB s r iid = false := by
            rw [← hfalse, hris]
            rfl
          have := @contrib_eq_zero_of_not_touches s servings r iid htc
          rw [← this]
          unfold contrib
          rw [hris]

end RecipeDb

namespace RecipeDb

lemma addQtyExact_keysConsistent {a : List (Int × Ingredient × Rat)} {ing : Ingredient}
    {v : Rat} (h : keysConsistent a) : keysConsistent (addQtyExact a ing v) := by
  unfold addQtyExact
  by_cases hany : a.any (fun e => e.1 == ing.ingredient_id)
  · rw [if_pos hany]
    intro e he
    rcases List.mem_map.mp he with ⟨e0, he0, heq⟩
    by_cases hp : e0.1 = ing.ingredient_id
    · have hb : (e0.1 == ing.ingredient_id) = true := by simp [hp]
      rw [← heq, if_pos hb]
      exact h e0 he0
    · have hb : (e0.1 == ing.ingredient_id) = false := by simp [hp]
      rw [← heq, if_neg (by simp [hb])]
      exact h e0 he0
  · rw [if_neg hany]
    intro e he
    rcases List.mem_append.mp he with he | he
    · exact h e he
    · have : e = (ing.ingredient_id, ing, 0 + v) := by simpa using he
      rw [this]

lemma foldl_addQtyExact_keysConsistent (mult : Rat) :
    ∀ (ris : List (Ingredient × Rat)) (acc : List (Int × Ingredient × Rat)),
      keysConsistent acc →
      keysConsistent (ris.foldl (fun a p => addQtyExact a p.1 (p.2 * mult)) acc) := by
  intro ris
  induction ris with
  | nil => intro acc h; simpa using h
  | cons p rest ih =>
    intro acc h
    simp only [List.foldl_cons]
    exact ih _ (addQtyExact_keysConsistent h)

lemma shoppingLoopExact_keysConsistent (s : Store) (servings : Int) :
    ∀ (l : List Recipe) (acc m : List (Int × Ingredient × Rat)),
      shoppingLoopExact s servings l acc = .ok m →
      keysConsistent acc → keysConsistent m := by
  intro l
  induction l with
  | nil => intro acc m hm h; cases hm; exact h
  | cons r rest ih =>
    intro acc m hm h
    simp only [shoppingLoopExact] at hm
    cases hg : get_all_recipe_ingredients s r.recipe_id with
    | error e => rw [hg] at hm; cases hm
    | ok ris =>
      simp only [hg] at hm
      by_cases hz : r.recipe_servings == 0
      · rw [if_pos hz] at hm; cases hm
      · rw [if_neg hz] at hm
        exact ih _ m hm (foldl_addQtyExact_keysConsistent _ ris acc h)

lemma totalFor_map_unkey :
    ∀ (m : List (Int × Ingredient × Rat)), keysConsistent m → ∀ (iid : Int),
      totalFor (m.map (fun e => (e.2.1, e.2.2))) iid = keyFind m iid := by
  intro m
  induction m with
  | nil => intro _ _; rfl
  | cons e rest ih =>
    intro h iid
    have hkey : e.2.1.ingredient_id = e.1 := h e (List.mem_cons_self _ _)
    unfold totalFor keyFind
    simp only [List.map_cons]
    by_cases hp : e.1 = iid
    · have hb1 : (((e.2.1, e.2.2) : Ingredient × Rat).1.ingredient_id == iid) = true := by
        simp [hkey, hp]
      have hb2 : (e.1 == iid) = true := by simp [hp]
      simp only [List.find?_cons, hb1, hb2]
      rfl
    · have hb1 : (((e.2.1, e.2.2) : Ingredient × Rat).1.ingredient_id == iid) = false := by
        simp [hkey, hp]
      have hb2 : (e.1 == iid) = false := by simp [hp]
      simp only [List.find?_cons, hb1, hb2]
      have hrec := ih (fun q hq => h q (List.mem_cons_of_mem _ hq)) iid
      unfold totalFor keyFind at hrec
      exact hrec

lemma get_shopping_list_exact_totalFor {s : Store} {servings : Int} {l : List Recipe}
    {res : List (Ingredient × Rat)} (h : get_shopping_list_exact s servings l = .ok res)
    (iid : Int) :
    totalFor res iid =
      (if anyTouches s l iid then
        (resolveIngredient s iid).map (fun ing => (ing, contribSum s servings l iid))
      else none) := by
  unfold get_shopping_list_exact at h
  cases hm : shoppingLoopExact s servings l [] with
  | error e => rw [hm] at h; cases h
  | ok m =>
    rw [hm] at h
    have hres : res = m.map (fun e => (e.2.1, e.2.2)) := by
      cases h; rfl
    rw [hres, totalFor_map_unkey m
      (shoppingLoopExact_keysConsistent s servings l [] m hm (fun e he => by cases he)) iid]
    rw [shoppingLoopExact_keyFind s servings iid l [] m hm]
    have hkf : keyFind ([] : List (Int × Ingredient × Rat)) iid = none := rfl
    rw [hkf]
    cases ht : anyTouches s l iid with
    | true => simp [combineEntry]
    | false => simp [combineEntry]

end RecipeDb

namespace RecipeDb

lemma perm_any {α : Type} (f : α → Bool) {l1 l2 : List α} (hp : l1.Perm l2) :
    l1.any f = l2.any f := by
  cases h1 : l1.any f with
  | true =>
    rcases List.any_eq_true.mp h1 with ⟨x, hx, hfx⟩
    exact (List.any_eq_true.mpr ⟨x, hp.mem_iff.mp hx, hfx⟩).symm
  | false =>
    cases h2 : l2.any f with
    | false => rfl
    | true =>
      rcases List.any_eq_true.mp h2 with ⟨x, hx, hfx⟩
      exact absurd hfx (List.any_eq_false.mp h1 x (hp.mem_iff.mpr hx))

lemma perm_all {α : Type} (f : α → Bool) {l1 l2 : List α} (hp : l1.Perm l2) :
    l1.all f = l2.all f := by
  cases h1 : l1.all f with
  | true =>
    exact (List.all_eq_true.mpr
      (fun x hx => List.all_eq_true.mp h1 x (hp.mem_iff.mpr hx))).symm
  | false =>
    cases h2 : l2.all f with
    | true =>
      exact absurd (List.all_eq_true.mpr
        (fun x hx => List.all_eq_true.mp h2 x (hp.mem_iff.mp hx))) (by rw [h1]; intro hc; cases hc)
    | false => rfl

/-- Counterexample to C8 as stated: over the doubles the source actually
accumulates, the same three-recipe set summed in two different orders
returns different Flour totals (0.6000000000000001 versus 0.6) — float
addition is not associative-commutative, so the returned dict depends on
the iteration order of the Python set. -/
theorem C8_counterexample :
    ([recT3, recT2, recT1] : List Recipe) = [recT1, recT2, recT3].reverse ∧
    get_shopping_list stTriple 1 [recT1, recT2, recT3]
      = .ok [(flour, 1351079888211149 / 2 ^ 51)] ∧
    get_shopping_list stTriple 1 [recT3, recT2, recT1]
      = .ok [(flour, 5404319552844595 / 2 ^ 53)] ∧
    (1351079888211149 / 2 ^ 51 : Rat) ≠ 5404319552844595 / 2 ^ 53 := by
  refine ⟨rfl, ?_, ?_, by norm_num⟩
  · simp +decide [get_shopping_list, shoppingLoop, addQty, get_all_recipe_ingredients,
      get_recipe_by_id, linkRowsFor, resolvedLinks, resolveIngredient, stTriple,
      recT1, recT2, recT3, flour, List.foldl, List.filterMap, List.find?, Except.map,
      fop_div1_1, fop_mul_q1_1, fop_mul_q2_1, fop_mul_q3_1, fop_add0_q1,
      fop_add_q1_q2, fop_add_s12_q3]
  · simp +decide [get_shopping_list, shoppingLoop, addQty, get_all_recipe_ingredients,
      get_recipe_by_id, linkRowsFor, resolvedLinks, resolveIngredient, stTriple,
      recT1, recT2, recT3, flour, List.foldl, List.filterMap, List.find?, Except.map,
      fop_div1_1, fop_mul_q1_1, fop_mul_q2_1, fop_mul_q3_1, fop_add0_q3,
      fop_add_q3_q2, fop_add_half_q1]

/-- Claim C8 (amended): permuting the recipe set never changes whether
`get_shopping_list` raises, and under the specification's exact real
arithmetic the per-ingredient totals are order-independent as well; for
the doubles the source actually accumulates, value equality of the
returned dict fails (non-associative float addition — see the
counterexample), so the order-independence of values holds of the exact
model only. -/
theorem C8_shopping_list_order_independent (s : Store) (servings : Int)
    (l1 l2 : List Recipe) (hp : l1.Perm l2) :
    exOk (get_shopping_list s servings l1) = exOk (get_shopping_list s servings l2) ∧
    ∀ m1 m2, get_shopping_list_exact s servings l1 = .ok m1 →
      get_shopping_list_exact s servings l2 = .ok m2 →
      ∀ iid, totalFor m1 iid = totalFor m2 iid := by
  constructor
  · rw [get_shopping_list_exOk, get_shopping_list_exOk]
    exact perm_all _ hp
  · intro m1 m2 h1 h2 iid
    rw [get_shopping_list_exact_totalFor h1 iid, get_shopping_list_exact_totalFor h2 iid]
    have hany : anyTouches s l1 iid = anyTouches s l2 iid := perm_any _ hp
    have hsum : contribSum s servings l1 iid = contribSum s servings l2 iid :=
      (hp.map _).sum_eq
    rw [hany, hsum]

/-- Witness for C8's amended claim at a concrete two-recipe store. -/
theorem C8_witness :
    exOk (get_shopping_list stTwo 4 [recA, recB]) = exOk (get_shopping_list stTwo 4 [recB, recA]) ∧
    totalFor [(flour, (250 : Rat)), (milk, 80)] 1 = totalFor [(flour, (250 : Rat)), (milk, 80)] 1 := by
  have hperm : ([recA, recB] : List Recipe).Perm [recB, recA] := List.Perm.swap recB recA []
  have h := C8_shopping_list_order_independent stTwo 4 [recA, recB] [recB, recA] hperm
  refine ⟨h.1, h.2 [(flour, 250), (milk, 80)] [(flour, 250), (milk, 80)] ?_ ?_ 1⟩
  · simp +decide [get_shopping_list_exact, shoppingLoopExact, addQtyExact,
      get_all_recipe_ingredients, get_recipe_by_id, linkRowsFor, resolvedLinks,
      resolveIngredient, stTwo, recA, recB, flour, milk, List.foldl, List.filterMap,
      List.find?, Except.map]
    norm_num
  · simp +decide [get_shopping_list_exact, shoppingLoopExact, addQtyExact,
      get_all_recipe_ingredients, get_recipe_by_id, linkRowsFor, resolvedLinks,
      resolveIngredient, stTwo, recA, recB, flour, milk, List.foldl, List.filterMap,
      List.find?, Except.map]
    norm_num

end RecipeDb

namespace RecipeDb

lemma adjust_eq_of_fetch {s : Store} {A : Recipe} {servings : Int}
    {ris : List (Ingredient × Rat)}
    (hA : get_recipe_by_id s A.recipe_id = .ok A)
    (hz : (A.recipe_servings == 0) = false)
    (hg : get_all_recipe_ingredients s A.recipe_id = .ok ris)
    (hpw : ris.Pairwise (fun p q => p.1.ingredient_id ≠ q.1.ingredient_id)) :
    adjust_recipe_by_servings s A.recipe_id servings =
      .ok (ris.map (fun p =>
        (p.1, fmul64 p.2
          (fmul64 (fdiv64 1 (A.recipe_servings : Rat)) (fl64 (servings : Rat)))))) := by
  simp only [adjust_recipe_by_servings, hA]
  rw [if_neg (by simp [hz])]
  simp only [hg]
  rw [foldl_dictSet_fresh _ ris [] hpw (by intro p _ q hq; cases hq)]
  rw [List.nil_append]

lemma scaleExact_eq_of_fetch {s : Store} {A : Recipe} {servings : Int}
    {ris : List (Ingredient × Rat)}
    (hA : get_recipe_by_id s A.recipe_id = .ok A)
    (hz : (A.recipe_servings == 0) = false)
    (hg : get_all_recipe_ingredients s A.recipe_id = .ok ris)
    (hpw : ris.Pairwise (fun p q => p.1.ingredient_id ≠ q.1.ingredient_id)) :
    scaleExact s A.recipe_id servings =
      .ok (ris.map (fun p =>
        (p.1, p.2 * (1 / (A.recipe_servings : Rat) * (servings : Rat))))) := by
  simp only [scaleExact, hA]
  rw [if_neg (by simp [hz])]
  simp only [hg]
  rw [foldl_dictSet_fresh _ ris [] hpw (by intro p _ q hq; cases hq)]
  rw [List.nil_append]

/-- Counterexample to C6 as stated: for the 49-servings recipe scaled to
49 servings, the two code paths compute the multiplier differently in
doubles — `get_shopping_list` as `49/49 = 1.0`, `adjust_recipe_by_servings`
as `(1/49)*49.0 = 0.9999999999999999` — so aggregating the singleton set
returns Flour 100.0 while scaling returns Flour 99.99999999999999: not the
same mapping. -/
theorem C6_counterexample :
    get_shopping_list stPan49 49 [pan49] = .ok [(flour, 100)] ∧
    adjust_recipe_by_servings stPan49 pan49.recipe_id 49
      = .ok [(flour, 7036874417766399 / 2 ^ 46)] ∧
    (7036874417766399 / 2 ^ 46 : Rat) ≠ 100 := by
  refine ⟨?_, ?_, by norm_num⟩
  · simp +decide [get_shopping_list, shoppingLoop, addQty, get_all_recipe_ingredients,
      get_recipe_by_id, linkRowsFor, resolvedLinks, resolveIngredient, stPan49, pan49,
      flour, List.foldl, List.filterMap, List.find?, Except.map,
      fop_div49_49, fop_mul_100_1, fop_add0_100]
  · simp +decide [adjust_recipe_by_servings, get_recipe_by_id, stPan49, pan49,
      get_all_recipe_ingredients, linkRowsFor, resolvedLinks, resolveIngredient, dictSet,
      flour, List.foldl, List.filterMap, List.find?,
      fv_fortynine, fop_div1_49, fop_mul_recip49_49, fop_mul_100_scale49]

/-- Claim C6 (amended): for a recipe consistent with the store (and the
pair-unique invariant of §3), aggregating the singleton set raises exactly
when scaling raises, and under the specification's exact real arithmetic
the two return the same mapping value-for-value; the source's doubles
compute the multiplier by two different expressions (`servings/base`
versus `(1/base)*servings`), which round differently, so value agreement
fails for the source arithmetic (see the counterexample). -/
theorem C6_singleton_aggregate_eq_scale (s : Store) (A : Recipe) (servings : Int)
    (hA : get_recipe_by_id s A.recipe_id = .ok A) (hU : pairUnique s) :
    exOk (get_shopping_list s servings [A])
      = exOk (adjust_recipe_by_servings s A.recipe_id servings) ∧
    ∀ m, get_shopping_list_exact s servings [A] = .ok m ↔
      scaleExact s A.recipe_id servings = .ok m := by
  constructor
  · rw [get_shopping_list_exOk]
    by_cases hz : A.recipe_servings == 0
    · have hadj : adjust_recipe_by_servings s A.recipe_id servings
          = .error .zeroDivisionError := by
        simp only [adjust_recipe_by_servings, hA]
        rw [if_pos hz]
      rw [hadj]
      simp [recipeOkB, hz, exOk]
    · cases hg : get_all_recipe_ingredients s A.recipe_id with
      | error e =>
        have hadj : adjust_recipe_by_servings s A.recipe_id servings = .error e := by
          simp only [adjust_recipe_by_servings, hA]
          rw [if_neg hz]
          simp only [hg]
        rw [hadj]
        simp [recipeOkB, hg, exOk]
      | ok ris =>
        have hadj : exOk (adjust_recipe_by_servings s A.recipe_id servings) = true := by
          simp only [adjust_recipe_by_servings, hA]
          rw [if_neg hz]
          simp only [hg]
          rfl
        rw [hadj]
        simp [recipeOkB, hg, exOk, hz]
  · intro m
    by_cases hz : A.recipe_servings == 0
    · have hadj : scaleExact s A.recipe_id servings = .error .zeroDivisionError := by
        simp only [scaleExact, hA]
        rw [if_pos hz]
      constructor
      · intro h
        have hok := get_shopping_list_exact_exOk s servings [A]
        rw [h] at hok
        simp [recipeOkB, hz, exOk] at hok
      · intro h
        rw [hadj] at h
        cases h
    · have hzb : (A.recipe_servings == 0) = false := by
        cases hv : (A.recipe_servings == 0)
        · rfl
        · exact absurd hv hz
      cases hg : get_all_recipe_ingredients s A.recipe_id with
      | error e =>
        have hadj : scaleExact s A.recipe_id servings = .error e := by
          simp only [scaleExact, hA]
          rw [if_neg (by simp [hzb])]
          simp only [hg]
        have hshop : get_shopping_list_exact s servings [A] = .error e := by
          simp only [get_shopping_list_exact, shoppingLoopExact, hg]
          rfl
        rw [hadj, hshop]
      | ok ris =>
        have hpw : ris.Pairwise (fun p q => p.1.ingredient_id ≠ q.1.ingredient_id) := by
          rw [(gari_ok_elim hg).1]
          exact resolvedLinks_keys_pairwise hU
        have hadj := @scaleExact_eq_of_fetch s A servings ris hA hzb hg hpw
        have hshop : get_shopping_list_exact s servings [A] =
            .ok (ris.map (fun p =>
              (p.1, 0 + p.2 * ((servings : Rat) / (A.recipe_servings : Rat))))) := by
          simp only [get_shopping_list_exact, shoppingLoopExact, hg]
          rw [if_neg (by simp [hzb])]
          rw [foldl_addQtyExact_fresh _ ris [] hpw (by intro p _ q hq; cases hq)]
          simp only [List.nil_append, shoppingLoopExact, Except.map, List.map_map]
          rfl
        have hfun : (fun (p : Ingredient × Rat) =>
              (p.1, 0 + p.2 * ((servings : Rat) / (A.recipe_servings : Rat))))
            = (fun (p : Ingredient × Rat) =>
              (p.1, p.2 * (1 / (A.recipe_servings : Rat) * (servings : Rat)))) := by
          funext p
          rw [zero_add, one_div, inv_mul_eq_div]
        rw [hadj, hshop, hfun]

/-- Witness for C6's amended claim on the Pancakes example. -/
theorem C6_witness :
    exOk (get_shopping_list stPancakes 8 [pancakes])
      = exOk (adjust_recipe_by_servings stPancakes pancakes.recipe_id 8) ∧
    (get_shopping_list_exact stPancakes 8 [pancakes] = .ok [(flour, 400), (milk, 600)] ↔
      scaleExact stPancakes pancakes.recipe_id 8 = .ok [(flour, 400), (milk, 600)]) := by
  have h := C6_singleton_aggregate_eq_scale stPancakes pancakes 8 rfl rfl
  exact ⟨h.1, h.2 [(flour, 400), (milk, 600)]⟩

end RecipeDb

namespace RecipeDb

/-- Counterexample to C7 as stated: a recipe that exists but has no
ingredient links does not return its (empty) unscaled quantities under
identity scaling — the call raises NotFoundError instead; and the
49-servings recipe scaled to its own 49 servings returns Flour
99.99999999999999, not its unscaled quantity 100.0, because the double
multiplier (1/49)*49.0 is 0.9999999999999999 rather than 1. -/
theorem C7_counterexample :
    get_recipe_by_id stBare 7 = .ok bareRecipe ∧
    linkRowsFor stBare 7 = [] ∧
    adjust_recipe_by_servings stBare 7 bareRecipe.recipe_servings = .error .notFound ∧
    exOk (adjust_recipe_by_servings stBare 7 bareRecipe.recipe_servings) = false ∧
    get_all_recipe_ingredients stPan49 1 = .ok [(flour, 100)] ∧
    adjust_recipe_by_servings stPan49 1 pan49.recipe_servings
      = .ok [(flour, 7036874417766399 / 2 ^ 46)] ∧
    (7036874417766399 / 2 ^ 46 : Rat) ≠ 100 := by
  refine ⟨rfl, rfl, rfl, rfl, rfl, ?_, by norm_num⟩
  simp +decide [adjust_recipe_by_servings, get_recipe_by_id, stPan49, pan49,
    get_all_recipe_ingredients, linkRowsFor, resolvedLinks, resolveIngredient, dictSet,
    flour, List.foldl, List.filterMap, List.find?,
    fv_fortynine, fop_div1_49, fop_mul_recip49_49, fop_mul_100_scale49]

/-- Claim C7 (amended): for a store-consistent recipe with non-zero
servings and at least one ingredient link (links resolved by the fetch,
their stored quantities being binary64 values as the Float column makes
them), scaling to the recipe's own base serving count returns exactly the
unscaled link quantities under the specification's exact real arithmetic,
and under the source's double arithmetic exactly when the computed
multiplier `(1/base)*float(base)` rounds to exactly 1.0 — which fails for
bases like 49 (see the counterexample). -/
theorem C7_identity_scaling (s : Store) (A : Recipe)
    (ris : List (Ingredient × Rat))
    (hA : get_recipe_by_id s A.recipe_id = .ok A) (hU : pairUnique s)
    (hz : A.recipe_servings ≠ 0)
    (hg : get_all_recipe_ingredients s A.recipe_id = .ok ris)
    (hq : ∀ p ∈ ris, fl64 p.2 = p.2) :
    scaleExact s A.recipe_id A.recipe_servings = .ok ris ∧
    (fmul64 (fdiv64 1 (A.recipe_servings : Rat)) (fl64 (A.recipe_servings : Rat)) = 1 →
      adjust_recipe_by_servings s A.recipe_id A.recipe_servings = .ok ris) := by
  have hzb : (A.recipe_servings == 0) = false := by simp [hz]
  have hpw : ris.Pairwise (fun p q => p.1.ingredient_id ≠ q.1.ingredient_id) := by
    rw [(gari_ok_elim hg).1]
    exact resolvedLinks_keys_pairwise hU
  constructor
  · rw [@scaleExact_eq_of_fetch s A A.recipe_servings ris hA hzb hg hpw]
    have hone : 1 / (A.recipe_servings : Rat) * (A.recipe_servings : Rat) = 1 := by
      rw [one_div]
      exact inv_mul_cancel₀ (Int.cast_ne_zero.mpr hz)
    rw [hone]
    have hfun : (fun (p : Ingredient × Rat) => (p.1, p.2 * 1)) = (id : Ingredient × Rat → Ingredient × Rat) := by
      funext p
      rw [mul_one]
      rfl
    rw [hfun, List.map_id]
  · intro hM
    rw [@adjust_eq_of_fetch s A A.recipe_servings ris hA hzb hg hpw, hM]
    have hmap : ris.map (fun p => (p.1, fmul64 p.2 1)) = ris.map id := by
      apply List.map_congr_left
      intro p hp
      have hv : fmul64 p.2 1 = p.2 := by
        unfold fmul64
        rw [mul_one]
        exact hq p hp
      rw [hv]
      rfl
    rw [hmap, List.map_id]

/-- Witness for C7's amended claim on the Pancakes example (base servings
4, whose reciprocal multiplier does round back to exactly 1.0). -/
theorem C7_witness :
    scaleExact stPancakes pancakes.recipe_id pancakes.recipe_servings
      = .ok [(flour, 200), (milk, 300)] ∧
    adjust_recipe_by_servings stPancakes pancakes.recipe_id pancakes.recipe_servings
      = .ok [(flour, 200), (milk, 300)] := by
  have h := C7_identity_scaling stPancakes pancakes [(flour, 200), (milk, 300)] rfl rfl
    (by decide) rfl
    (by
      intro p hp
      fin_cases hp
      · exact fv_twohundred
      · exact fv_threehundred)
  exact ⟨h.1, h.2 (by simp [pancakes, fop_div1_4, fv_four, fop_mul_qtr_4])⟩

end RecipeDb

namespace RecipeDb

/-- Counterexample to C2 as stated: on the specification's own Pancakes
example the returned Python value is the quantity dict alone; no macro
quartet accompanies it (the source's Ingredient schema has no macro
columns at all). -/
theorem C2_counterexample :
    adjustPyReturn stPancakes 1 8 = .ok (.quantities [(flour, 400), (milk, 600)]) ∧
    hasMacroQuartet (adjustPyReturn stPancakes 1 8) = false := by
  constructor
  · simp +decide [adjustPyReturn, adjust_recipe_by_servings, get_recipe_by_id, stPancakes,
      pancakes, get_all_recipe_ingredients, linkRowsFor, resolvedLinks, resolveIngredient,
      dictSet, flour, milk, List.foldl, List.filterMap, List.find?, Except.map,
      fop_div1_4, fv_eight, fop_mul_qtr_8, fop_mul_200_2, fop_mul_300_2]
  · rfl

/-- Claim C2 (amended): `adjust_recipe_by_servings` returns only the
per-ingredient quantity mapping `link.quantity * multiplier`; it computes
no macro quartet, for any input whatsoever. -/
theorem C2_scale_returns_quantities_only (s : Store) (A : Recipe) (servings : Int)
    (ris : List (Ingredient × Rat))
    (hA : get_recipe_by_id s A.recipe_id = .ok A) (hU : pairUnique s)
    (hz : A.recipe_servings ≠ 0)
    (hg : get_all_recipe_ingredients s A.recipe_id = .ok ris) :
    adjustPyReturn s A.recipe_id servings =
      .ok (.quantities (ris.map (fun p =>
        (p.1, fmul64 p.2
          (fmul64 (fdiv64 1 (A.recipe_servings : Rat)) (fl64 (servings : Rat))))))) ∧
    ∀ (s' : Store) (rid tgt : Int), hasMacroQuartet (adjustPyReturn s' rid tgt) = false := by
  constructor
  · have hzb : (A.recipe_servings == 0) = false := by simp [hz]
    have hpw : ris.Pairwise (fun p q => p.1.ingredient_id ≠ q.1.ingredient_id) := by
      rw [(gari_ok_elim hg).1]
      exact resolvedLinks_keys_pairwise hU
    unfold adjustPyReturn
    rw [@adjust_eq_of_fetch s A servings ris hA hzb hg hpw]
    rfl
  · intro s' rid tgt
    unfold adjustPyReturn hasMacroQuartet
    cases adjust_recipe_by_servings s' rid tgt with
    | error e => rfl
    | ok m => rfl

/-- Witness for C2's amended claim on the Pancakes example. -/
theorem C2_witness :
    adjustPyReturn stPancakes pancakes.recipe_id 8 =
      .ok (.quantities ([((flour : Ingredient), (200 : Rat)), (milk, 300)].map (fun p =>
        (p.1, fmul64 p.2 (fmul64 (fdiv64 1 ((4 : Int) : Rat)) (fl64 ((8 : Int) : Rat))))))) ∧
    hasMacroQuartet (adjustPyReturn emptyStore 3 5) = false := by
  have h := C2_scale_returns_quantities_only stPancakes pancakes 8
    [(flour, 200), (milk, 300)] rfl rfl (by decide) rfl
  exact ⟨h.1, h.2 emptyStore 3 5⟩

end RecipeDb

namespace RecipeDb

/-- Counterexample to C1 as stated: a recipe with negative servings (-2)
used as the scaling basis does not fail at all — no InvalidRecipe exists
in the source, and the quantity is silently divided to -200. -/
theorem C1_counterexample :
    negRecipe.recipe_servings ≤ 0 ∧
    get_recipe_by_id stNeg 1 = .ok negRecipe ∧
    adjust_recipe_by_servings stNeg 1 4 = .ok [(flour, -200)] ∧
    exOk (adjust_recipe_by_servings stNeg 1 4) = true := by
  refine ⟨by decide, rfl, ?_, rfl⟩
  simp +decide [adjust_recipe_by_servings, get_recipe_by_id, stNeg, negRecipe,
    get_all_recipe_ingredients, linkRowsFor, resolvedLinks, resolveIngredient, dictSet,
    flour, List.foldl, List.filterMap, List.find?,
    fop_div1_neg2, fv_four, fop_mul_neghalf_4, fop_mul_100_neg2]

/-- Claim C1 (amended): the source defines no InvalidRecipe error.  A
recipe whose servings are exactly 0 fails scaling with ZeroDivisionError,
and its presence in a shopping-list set fails the whole aggregation (no
partial result); a recipe with negative servings is silently divided,
returning the scaled quantities without any error. -/
theorem C1_nonpositive_servings (s : Store) (rid tgt : Int) (A : Recipe)
    (l : List Recipe) (ris : List (Ingredient × Rat))
    (hA : get_recipe_by_id s rid = .ok A) (hnp : A.recipe_servings ≤ 0) :
    (A.recipe_servings = 0 →
      adjust_recipe_by_servings s rid tgt = .error .zeroDivisionError ∧
      (A ∈ l → exOk (get_shopping_list s tgt l) = false)) ∧
    (A.recipe_servings < 0 → get_all_recipe_ingredients s rid = .ok ris →
      adjust_recipe_by_servings s rid tgt =
        .ok (ris.foldl (fun d p =>
          dictSet d p.1 (fmul64 p.2
            (fmul64 (fdiv64 1 (A.recipe_servings : Rat)) (fl64 (tgt : Rat))))) [])) := by
  constructor
  · intro hz
    have hzb : (A.recipe_servings == 0) = true := by simp [hz]
    constructor
    · simp only [adjust_recipe_by_servings, hA]
      rw [if_pos hzb]
    · intro hmem
      rw [get_shopping_list_exOk]
      cases hall : l.all (recipeOkB s) with
      | false => rfl
      | true =>
        exfalso
        have := List.all_eq_true.mp hall A hmem
        simp [recipeOkB, hzb] at this
  · intro hneg hg
    have hzb : (A.recipe_servings == 0) = false := by
      simp
      omega
    simp only [adjust_recipe_by_servings, hA]
    rw [if_neg (by simp [hzb])]
    simp only [hg]

/-- Witness for C1's amended claim at a zero-servings store. -/
theorem C1_witness :
    adjust_recipe_by_servings stZero 1 5 = .error .zeroDivisionError ∧
    exOk (get_shopping_list stZero 5 [zeroRecipe]) = false := by
  have h := (C1_nonpositive_servings stZero 1 5 zeroRecipe [zeroRecipe] [] rfl (by decide)).1 rfl
  exact ⟨h.1, h.2 (List.mem_cons_self _ _)⟩

/-- Counterexample to C3 as stated: recipe 7 exists in the store and has
no ingredient links, yet the fetch raises NotFoundError rather than
returning the empty sequence. -/
theorem C3_counterexample :
    get_recipe_by_id stBare 7 = .ok bareRecipe ∧
    linkRowsFor stBare 7 = [] ∧
    get_all_recipe_ingredients stBare 7 = .error .notFound ∧
    get_all_recipe_ingredients stBare 7 ≠ .ok [] := by
  refine ⟨rfl, rfl, rfl, ?_⟩
  intro hc
  have h3 : get_all_recipe_ingredients stBare 7 = .error .notFound := rfl
  rw [h3] at hc
  cases hc

/-- Claim C3 (amended): `get_all_recipe_ingredients` raises NotFoundError
exactly when the recipe is missing or the recipe exists but has no
ingredient links; an empty sequence is never returned. -/
theorem C3_notFound_iff (s : Store) (rid : Int) :
    get_all_recipe_ingredients s rid = .error .notFound ↔
      (get_recipe_by_id s rid = .error .notFound ∨ linkRowsFor s rid = []) := by
  unfold get_all_recipe_ingredients
  cases hg : get_recipe_by_id s rid with
  | error e =>
    have he : e = .notFound := get_recipe_by_id_error hg
    subst he
    simp [hg]
  | ok rec =>
    simp only [hg]
    by_cases he : (linkRowsFor s rid).isEmpty
    · rw [if_pos he]
      simp [List.isEmpty_iff.mp he]
    · rw [if_neg he]
      constructor
      · intro hc
        cases hc
      · rintro (hc | hc)
        · cases hc
        · exact absurd (List.isEmpty_iff.mpr hc) he

end RecipeDb

namespace RecipeDb

/-- Counterexample to C4 as stated: on an empty store the plan of one
recipe fails with the IndexError of `random.choice([])`, not with a
NoRecipesAvailable error (the source defines none). -/
theorem C4_counterexample :
    generate_meal_plan emptyStore rngZero 1 = .error .indexError ∧
    PyError.indexError ≠ PyError.noRecipesAvailable :=
  ⟨rfl, by decide⟩

/-- Claim C4 (amended): when the store holds zero recipes and the
requested count is positive, `generate_meal_plan` fails — by the
IndexError that `random.choice` raises on the empty recipe list. -/
theorem C4_empty_store_fails (s : Store) (rng : Nat → Nat) (n : Int)
    (h0 : 0 < n) (hempty : s.recipes = []) :
    generate_meal_plan s rng n = .error .indexError := by
  unfold generate_meal_plan
  rw [if_neg (by omega)]
  have hrand : get_random_recipe s (rng 0) = .error .indexError := by
    unfold get_random_recipe pyChoice
    rw [hempty]
    rfl
  rw [hrand]

/-- Witness for C4's amended claim. -/
theorem C4_witness : generate_meal_plan emptyStore rngZero 2 = .error .indexError :=
  C4_empty_store_fails emptyStore rngZero 2 (by decide) rfl

/-- Counterexample to C5 as stated: a NotFoundError raised by a store read
mid-walk (here: the start recipe exists but has no ingredient links, so
`get_all_recipe_ingredients` raises) aborts the entire plan instead of
dropping the affected step. -/
theorem C5_counterexample :
    generate_meal_plan stWalk rngZero 2 = .error .notFound := rfl

/-- Claim C5 (amended): a NotFoundError raised by
`get_all_recipe_ingredients` on the current recipe during the walk
propagates out of `generate_meal_plan` and aborts the whole plan — the
loop's only guard catches ValueError around `get_recipes_from_ingredient`,
which never raises. -/
theorem C5_notFound_mid_walk_aborts (s : Store) (rng : Nat → Nat) (n : Int)
    (first : Recipe) (e : PyError)
    (h1 : 1 < n)
    (hc : get_random_recipe s (rng 0) = .ok first)
    (hf : get_all_recipe_ingredients s first.recipe_id = .error e) :
    generate_meal_plan s rng n = .error e := by
  unfold generate_meal_plan
  rw [if_neg (by omega)]
  simp only [hc]
  have hfuel : n.toNat = (n.toNat - 1) + 1 := by omega
  rw [hfuel]
  simp only [mealPlanLoop]
  rw [if_pos (by simp; omega)]
  simp only [hf]

/-- Witness for C5's amended claim. -/
theorem C5_witness : generate_meal_plan stWalk rngZero 3 = .error .notFound :=
  C5_notFound_mid_walk_aborts stWalk rngZero 3 walkA .notFound (by decide) rfl rfl

end RecipeDb

namespace RecipeDb

lemma mem_setUnion : ∀ (b a : List Recipe) (x : Recipe), x ∈ setUnion a b → x ∈ a ∨ x ∈ b := by
  intro b
  induction b with
  | nil => intro a x hx; exact Or.inl hx
  | cons y rest ih =>
    intro a x hx
    have hx2 : x ∈ setUnion
        (if a.any (fun v => v.recipe_id == y.recipe_id) then a else a ++ [y]) rest := hx
    rcases ih _ x hx2 with hx' | hx'
    · by_cases hany : a.any (fun v => v.recipe_id == y.recipe_id)
      · rw [if_pos hany] at hx'
        exact Or.inl hx'
      · rw [if_neg hany] at hx'
        rcases List.mem_append.mp hx' with hx' | hx'
        · exact Or.inl hx'
        · right
          have : x = y := by simpa using hx'
          rw [this]
          exact List.mem_cons_self _ _
    · exact Or.inr (List.mem_cons_of_mem _ hx')

lemma mem_get_recipes_from_ingredient {s : Store} {x : Recipe} {iid : Int}
    (h : x ∈ get_recipes_from_ingredient s iid) : x ∈ s.recipes := by
  unfold get_recipes_from_ingredient at h
  rcases List.mem_filterMap.mp h with ⟨row, _, hrow⟩
  exact List.mem_of_find?_eq_some hrow

lemma overlapping_mem (s : Store) :
    ∀ (rows : List (Ingredient × Rat)) (acc : List Recipe),
      (∀ x ∈ acc, x ∈ s.recipes) →
      ∀ x ∈ rows.foldl
          (fun acc p => setUnion acc (get_recipes_from_ingredient s p.1.ingredient_id)) acc,
        x ∈ s.recipes := by
  intro rows
  induction rows with
  | nil => intro acc hacc x hx; exact hacc x hx
  | cons p rest ih =>
    intro acc hacc x hx
    refine ih _ ?_ x hx
    intro y hy
    rcases mem_setUnion _ _ _ hy with hy | hy
    · exact hacc y hy
    · exact mem_get_recipes_from_ingredient hy

lemma mem_setDiff {a b : List Recipe} {x : Recipe} (h : x ∈ setDiff a b) :
    x ∈ a ∧ ∀ v ∈ b, ¬(v.recipe_id = x.recipe_id) := by
  unfold setDiff at h
  have hf := List.mem_filter.mp h
  refine ⟨hf.1, ?_⟩
  intro v hv he
  have hany : (b.any (fun v => v.recipe_id == x.recipe_id)) = false := by
    cases hv2 : b.any (fun v => v.recipe_id == x.recipe_id)
    · rfl
    · have h2 := hf.2
      rw [hv2] at h2
      cases h2
  exact List.any_eq_false.mp hany v hv (by simpa using he)

lemma setDiff_eq_nil_covered {a b : List Recipe} (h : setDiff a b = []) :
    ∀ r ∈ a, ∃ v ∈ b, v.recipe_id = r.recipe_id := by
  intro r hr
  have hnp := List.filter_eq_nil_iff.mp h r hr
  have hany : b.any (fun v => v.recipe_id == r.recipe_id) = true := by
    cases hv : b.any (fun v => v.recipe_id == r.recipe_id)
    · exact absurd (by rw [hv]; rfl) hnp
    · rfl
  rcases List.any_eq_true.mp hany with ⟨v, hv, hp⟩
  exact ⟨v, hv, by simpa using hp⟩

lemma pyChoice_ok_mem {α : Type} {l : List α} {r : Nat} {x : α}
    (h : pyChoice l r = .ok x) : x ∈ l := by
  unfold pyChoice at h
  by_cases hl : l.length = 0
  · rw [dif_pos hl] at h
    cases h
  · rw [dif_neg hl] at h
    cases h
    exact List.get_mem _ _ _

end RecipeDb

namespace RecipeDb

lemma mealPlanLoop_spec (s : Store) (rng : Nat → Nat) (n : Int) :
    ∀ (fuel step : Nat) (visited : List Recipe) (current : Recipe) (l : List Recipe),
      mealPlanLoop s rng n fuel step visited current = .ok l →
      (visited.map (fun r => r.recipe_id)).Nodup →
      (∀ r ∈ visited, r ∈ s.recipes) →
      n + 1 ≤ (fuel : Int) + (visited.length : Int) →
      ((l.map (fun r => r.recipe_id)).Nodup ∧
       (∀ r ∈ l, r ∈ s.recipes) ∧
       l.length ≤ max visited.length n.toNat ∧
       ((l.length : Int) < n → ∀ r ∈ s.recipes, r.recipe_id ∈ l.map (fun r => r.recipe_id))) := by
  intro fuel
  induction fuel with
  | zero =>
    intro step visited current l hl hnd hmem hfuel
    cases hl
    refine ⟨hnd, hmem, le_max_left _ _, ?_⟩
    intro hlen
    exfalso
    simp only [Nat.cast_zero, zero_add] at hfuel
    omega
  | succ fuel ih =>
    intro step visited current l hl hnd hmem hfuel
    simp only [mealPlanLoop] at hl
    by_cases hlt : (visited.length : Int) < n
    · rw [if_pos hlt] at hl
      cases hg : get_all_recipe_ingredients s current.recipe_id with
      | error e => rw [hg] at hl; cases hl
      | ok rows =>
        simp only [hg] at hl
        generalize hOV : rows.foldl
          (fun acc p => setUnion acc (get_recipes_from_ingredient s p.1.ingredient_id))
          ([] : List Recipe) = OV at hl
        by_cases hb1 : ((setDiff OV visited).isEmpty && (get_all_recipes s).isEmpty) = true
        · rw [if_pos hb1] at hl
          cases hl
          refine ⟨hnd, hmem, le_max_left _ _, ?_⟩
          intro _ r hr
          have hnil : s.recipes = [] :=
            List.isEmpty_iff.mp (Bool.and_elim_right hb1)
          rw [hnil] at hr
          cases hr
        · rw [if_neg hb1] at hl
          by_cases hb2 : ((if (setDiff OV visited).isEmpty then
              setDiff (get_all_recipes s) visited else setDiff OV visited).isEmpty) = true
          · rw [if_pos hb2] at hl
            cases hl
            refine ⟨hnd, hmem, le_max_left _ _, ?_⟩
            intro _ r hr
            by_cases hov : (setDiff OV visited).isEmpty
            · rw [if_pos hov] at hb2
              have hcov := setDiff_eq_nil_covered (List.isEmpty_iff.mp hb2) r hr
              rcases hcov with ⟨v, hv, hid⟩
              exact List.mem_map.mpr ⟨v, hv, hid⟩
            · rw [if_neg hov] at hb2
              exact absurd hb2 hov
          · rw [if_neg hb2] at hl
            cases hch : pyChoice (if (setDiff OV visited).isEmpty then
                setDiff (get_all_recipes s) visited else setDiff OV visited) (rng step) with
            | error e => rw [hch] at hl; cases hl
            | ok next =>
              rw [hch] at hl
              have hpot : next ∈ (if (setDiff OV visited).isEmpty then
                  setDiff (get_all_recipes s) visited else setDiff OV visited) :=
                pyChoice_ok_mem hch
              have hnext : next ∈ s.recipes ∧ ∀ v ∈ visited, ¬(v.recipe_id = next.recipe_id) := by
                by_cases hov : (setDiff OV visited).isEmpty
                · rw [if_pos hov] at hpot
                  have hsd := mem_setDiff hpot
                  exact ⟨hsd.1, hsd.2⟩
                · rw [if_neg hov] at hpot
                  have hsd := mem_setDiff hpot
                  refine ⟨?_, hsd.2⟩
                  have := hsd.1
                  rw [← hOV] at this
                  exact overlapping_mem s rows [] (fun x hx => by cases hx) next this
              have hnd2 : ((visited ++ [next]).map (fun r => r.recipe_id)).Nodup := by
                rw [List.map_append]
                rw [List.nodup_append]
                refine ⟨hnd, by simp, ?_⟩
                intro a ha hb
                have hne : a = next.recipe_id := by simpa using hb
                rcases List.mem_map.mp ha with ⟨v, hv, hid⟩
                exact hnext.2 v hv (by rw [hid, hne])
              have hmem2 : ∀ r ∈ visited ++ [next], r ∈ s.recipes := by
                intro r hr
                rcases List.mem_append.mp hr with hr | hr
                · exact hmem r hr
                · have : r = next := by simpa using hr
                  rw [this]
                  exact hnext.1
              have hfuel2 : n + 1 ≤ (fuel : Int) + ((visited ++ [next]).length : Int) := by
                simp only [List.length_append, List.length_cons, List.length_nil]
                push_cast
                push_cast at hfuel
                omega
              have hres := ih (step + 1) (visited ++ [next]) next l hl hnd2 hmem2 hfuel2
              refine ⟨hres.1, hres.2.1, ?_, hres.2.2.2⟩
              have hlen := hres.2.2.1
              rw [List.length_append] at hlen
              have h1n : visited.length + 1 ≤ n.toNat := by
                have hn0 : (0 : Int) ≤ n := le_of_lt (lt_of_le_of_lt (Int.natCast_nonneg _) hlt)
                rw [Int.le_toNat hn0]
                push_cast
                omega
              calc l.length ≤ max (visited.length + 1) n.toNat := by simpa using hlen
                _ = n.toNat := Nat.max_eq_right h1n
                _ ≤ max visited.length n.toNat := le_max_right _ _
    · rw [if_neg hlt] at hl
      cases hl
      exact ⟨hnd, hmem, le_max_left _ _, fun hlen => absurd hlen hlt⟩

end RecipeDb

namespace RecipeDb

/-- Claim C9: every successful meal-plan run returns pairwise-distinct
recipes (one new recipe per loop iteration), never more than the requested
count and never more than the store's distinct recipe count, and when more
recipes are requested than exist, the full recipe set is returned. -/
theorem C9_meal_plan_bounds (s : Store) (rng : Nat → Nat) (n : Int)
    (l : List Recipe) (h : generate_meal_plan s rng n = .ok l) :
    (l.map (fun r => r.recipe_id)).Nodup ∧
    (l.length : Int) ≤ max n 0 ∧
    l.length ≤ distinctRecipeCount s ∧
    ((distinctRecipeCount s : Int) < n →
      ∀ r ∈ s.recipes, r.recipe_id ∈ l.map (fun r => r.recipe_id)) := by
  unfold generate_meal_plan at h
  by_cases hn : n ≤ 0
  · rw [if_pos hn] at h
    cases h
    refine ⟨List.nodup_nil, by simp [le_max_right], by simp, ?_⟩
    intro hlt
    exfalso
    have hd : (0 : Int) ≤ (distinctRecipeCount s : Int) := Int.natCast_nonneg _
    omega
  · rw [if_neg hn] at h
    cases hch : get_random_recipe s (rng 0) with
    | error e => rw [hch] at h; cases h
    | ok first =>
      simp only [hch] at h
      have hch2 : pyChoice s.recipes (rng 0) = .ok first := hch
      have hmem1 : first ∈ s.recipes := pyChoice_ok_mem hch2
      have hres := mealPlanLoop_spec s rng n n.toNat 1 [first] first l h
        (by simp)
        (by
          intro r hr
          have : r = first := by simpa using hr
          rw [this]
          exact hmem1)
        (by
          simp only [List.length_cons, List.length_nil]
          push_cast
          omega)
      obtain ⟨hnd, hmeml, hlen, hcov⟩ := hres
      have hlenN : l.length ≤ n.toNat := by
        have h1 : (1 : Nat) ≤ n.toNat := by omega
        calc l.length ≤ max ([first].length) n.toNat := hlen
          _ = max 1 n.toNat := by rw [List.length_singleton]
          _ = n.toNat := Nat.max_eq_right h1
      have hd : l.length ≤ distinctRecipeCount s := by
        have hsub : (l.map (fun r => r.recipe_id)) ⊆
            (s.recipes.map (fun r => r.recipe_id)).dedup := by
          intro a ha
          rcases List.mem_map.mp ha with ⟨r, hr, hid⟩
          exact List.mem_dedup.mpr (List.mem_map.mpr ⟨r, hmeml r hr, hid⟩)
        have hle := (hnd.subperm hsub).length_le
        rw [List.length_map] at hle
        exact hle
      refine ⟨hnd, ?_, hd, ?_⟩
      · have : (l.length : Int) ≤ n := by omega
        omega
      · intro hlt r hr
        exact hcov (by omega) r hr

/-- Witness for C9: requesting five recipes from a two-recipe store
returns both recipes exactly once. -/
theorem C9_witness :
    ((([recA, recB] : List Recipe).map (fun r => r.recipe_id)).Nodup) ∧
    ([recA, recB] : List Recipe).length ≤ distinctRecipeCount stTwo ∧
    recB.recipe_id ∈ ([recA, recB] : List Recipe).map (fun r => r.recipe_id) := by
  have h := C9_meal_plan_bounds stTwo rngZero 5 [recA, recB] rfl
  exact ⟨h.1, h.2.2.1, h.2.2.2 (by decide) recB (by decide)⟩

end RecipeDb

namespace RecipeDb

lemma noDupPair_append_break :
    ∀ (l : List RecipeIngredient) (row : RecipeIngredient),
      (l.any fun r2 => r2.recipe_id == row.recipe_id &&
        r2.ingredient_id == row.ingredient_id) = true →
      noDupPair (l ++ [row]) = false := by
  intro l
  induction l with
  | nil => intro row h; cases h
  | cons hd rest ih =>
    intro row h
    rw [List.any_cons] at h
    simp only [List.cons_append, noDupPair, List.append_eq]
    rcases Bool.or_eq_true_iff.mp h with hhd | hrest
    · have hr : (row.recipe_id == hd.recipe_id &&
          row.ingredient_id == hd.ingredient_id) = true := by
        simp only [Bool.and_eq_true, beq_iff_eq] at hhd
        simp [hhd.1, hhd.2]
      have hany : ((rest ++ [row]).any fun r2 => r2.recipe_id == hd.recipe_id &&
          r2.ingredient_id == hd.ingredient_id) = true :=
        List.any_eq_true.mpr ⟨row, List.mem_append.mpr (Or.inr (List.mem_cons_self _ _)), hr⟩
      rw [hany]
      rfl
    · rw [ih row hrest, Bool.and_false]

lemma noDupPair_append_keep :
    ∀ (l : List RecipeIngredient) (row : RecipeIngredient),
      noDupPair l = true →
      (l.any fun r2 => r2.recipe_id == row.recipe_id &&
        r2.ingredient_id == row.ingredient_id) = false →
      noDupPair (l ++ [row]) = true := by
  intro l
  induction l with
  | nil => intro row _ _; rfl
  | cons hd rest ih =>
    intro row hnd hany
    rw [List.any_cons] at hany
    rcases Bool.or_eq_false_iff.mp hany with ⟨hhd, hrest⟩
    simp only [noDupPair, Bool.and_eq_true] at hnd
    simp only [List.cons_append, noDupPair, Bool.and_eq_true, List.append_eq]
    constructor
    · rw [Bool.not_eq_true']
      rw [List.any_append, Bool.or_eq_false_iff]
      have h1 := hnd.1
      rw [Bool.not_eq_true'] at h1
      refine ⟨h1, ?_⟩
      simp only [List.any_cons, List.any_nil, Bool.or_false]
      cases hv : (row.recipe_id == hd.recipe_id && row.ingredient_id == hd.ingredient_id)
      · rfl
      · exfalso
        simp only [Bool.and_eq_true, beq_iff_eq] at hv
        have hsym : (hd.recipe_id == row.recipe_id &&
            hd.ingredient_id == row.ingredient_id) = true := by
          simp [hv.1, hv.2]
        rw [hsym] at hhd
        cases hhd
    · exact ih row hnd.2 hrest

end RecipeDb

namespace RecipeDb

/-- Claim C10 (code bug): the application-level duplicate check fires, but
the `raise IntegrityError("Ingredient already exists for the recipe.")` at
db_manager.py line 511 cannot construct that exception — SQLAlchemy 2.0's
IntegrityError inherits `DBAPIError.__init__(statement, params, orig, ...)`
and has no one-argument form — so the duplicate insert actually raises
TypeError, not the IntegrityError the function's docstring promises (and
main.py's 409 handler would catch); the schema-level insert itself accepts
the duplicate row, the association table having no uniqueness constraint
on the pair. -/
theorem C10_duplicate_raises_typeError :
    add_recipe_ingredients stTwo 1 1 5 = .error .typeError ∧
    PyError.typeError ≠ PyError.integrityError ∧
    noDupPair (insertLinkRow stTwo ⟨nextLinkId stTwo, 1, 1, 5⟩).links = false :=
  ⟨rfl, by decide, rfl⟩

/-- `add_recipe_ingredients` behaviour around §3's pair-uniqueness
invariant: a duplicate pair is refused (by the TypeError its failing
IntegrityError construction raises), a successful insert preserves the
invariant, and the bare schema insert accepts the duplicate row. -/
lemma add_recipe_ingredients_props (s : Store) (r i : Int) (q : Rat) :
    (exOk (get_recipe_by_id s r) = true →
      (s.links.any fun row => row.recipe_id == r && row.ingredient_id == i) = true →
      add_recipe_ingredients s r i q = .error .typeError) ∧
    (∀ (s' : Store) (nid : Int), pairUnique s →
      add_recipe_ingredients s r i q = .ok (s', nid) → pairUnique s') ∧
    ((s.links.any fun row => row.recipe_id == r && row.ingredient_id == i) = true →
      noDupPair (insertLinkRow s ⟨nextLinkId s, r, i, q⟩).links = false) := by
  refine ⟨?_, ?_, ?_⟩
  · intro hok hany
    cases hrec : get_recipe_by_id s r with
    | error e =>
      rw [hrec] at hok
      simp [exOk] at hok
    | ok rec =>
      unfold add_recipe_ingredients
      simp only [hrec]
      have hfind : (s.links.find?
          (fun row => row.recipe_id == r && row.ingredient_id == i)).isSome := by
        rw [List.find?_isSome]
        rcases List.any_eq_true.mp hany with ⟨row, hrow, hp⟩
        exact ⟨row, hrow, hp⟩
      rcases Option.isSome_iff_exists.mp hfind with ⟨row, hrow⟩
      have hgri : get_recipe_ingredient s r i =
          .ok (resolveIngredient s row.ingredient_id, row.ingredient_quantity) := by
        unfold get_recipe_ingredient
        simp only [hrec, hrow]
      simp only [hgri]
  · intro s' nid hU hadd
    unfold add_recipe_ingredients at hadd
    cases hrec : get_recipe_by_id s r with
    | error e => rw [hrec] at hadd; cases hadd
    | ok rec =>
      simp only [hrec] at hadd
      cases hgri : get_recipe_ingredient s r i with
      | ok v => simp only [hgri] at hadd; cases hadd
      | error e =>
        cases e with
        | notFound =>
          simp only [hgri] at hadd
          cases hadd
          unfold pairUnique insertLinkRow
          apply noDupPair_append_keep _ _ hU
          have hnone : s.links.find?
              (fun row => row.recipe_id == r && row.ingredient_id == i) = none := by
            unfold get_recipe_ingredient at hgri
            simp only [hrec] at hgri
            cases hf : s.links.find?
                (fun row => row.recipe_id == r && row.ingredient_id == i) with
            | some row => simp only [hf] at hgri; cases hgri
            | none => rfl
          rw [List.any_eq_false]
          intro x hx
          have := List.find?_eq_none.mp hnone x hx
          simpa using this
        | integrityError => simp only [hgri] at hadd; cases hadd
        | otherError => simp only [hgri] at hadd; cases hadd
        | zeroDivisionError => simp only [hgri] at hadd; cases hadd
        | indexError => simp only [hgri] at hadd; cases hadd
        | typeError => simp only [hgri] at hadd; cases hadd
        | noRecipesAvailable => simp only [hgri] at hadd; cases hadd
  · intro hany
    unfold insertLinkRow
    exact noDupPair_append_break s.links ⟨nextLinkId s, r, i, q⟩ hany

/-- Concrete check of the invariant lemma: a duplicate (recipe 1,
ingredient 1) attempt on the two-recipe store is refused with the
TypeError, and the fresh (recipe 1, ingredient 2) insert preserves pair
uniqueness. -/
lemma add_recipe_ingredients_props_concrete :
    add_recipe_ingredients stTwo 1 1 5 = .error .typeError ∧
    pairUnique (⟨[flour, milk], [recA, recB],
      [⟨1, 1, 1, 100⟩, ⟨2, 2, 1, 50⟩, ⟨3, 2, 2, 80⟩, ⟨4, 1, 2, 5⟩]⟩ : Store) := by
  refine ⟨(add_recipe_ingredients_props stTwo 1 1 5).1 rfl rfl, ?_⟩
  exact (add_recipe_ingredients_props stTwo 1 2 5).2.1
    (⟨[flour, milk], [recA, recB],
      [⟨1, 1, 1, 100⟩, ⟨2, 2, 1, 50⟩, ⟨3, 2, 2, 80⟩, ⟨4, 1, 2, 5⟩]⟩ : Store) 4 rfl rfl

end RecipeDb
